import Mathlib

/-!
# Verification of the telecom-tracker parsing/aggregation pipeline

Shallow embedding of the Excel parsing and aggregation pipeline
(`src/lib/excel-parser.ts`) and the UI-side multi-file merger
(`src/app/page.tsx`).

Conventions of the embedding:
* JavaScript strings are modelled as `List Char` (`Str`).
* JavaScript numbers that carry coordinates are modelled as exact
  rationals (`ℚ`); the code only compares, subtracts and takes absolute
  values of them.
* `Date` values are modelled by their epoch timestamp (`ℤ`, milliseconds);
  the host time zone is modelled as UTC.
* Behaviour supplied by the JavaScript runtime or external libraries
  (number rendering, `Date` string parsing, locale formatting, the
  `XLSX.SSF` serial-date decoder) is abstracted into a `Js` structure of
  functions over which all theorems are universally quantified.
-/

/-- JavaScript strings, modelled as lists of characters. -/
abbrev Str := List Char

/-- The whitespace characters recognised by JavaScript's `trim` and the
regex class `\s` (the code points that occur in practice). -/
def isJsWs (c : Char) : Bool :=
  c = ' ' ∨ c = '\t' ∨ c = '\n' ∨ c = '\r' ∨
  c = Char.ofNat 11 ∨ c = Char.ofNat 12 ∨ c = Char.ofNat 160 ∨ c = Char.ofNat 65279

/-- Model of `String.prototype.trim`: strip leading and trailing whitespace. -/
def jsTrim (s : Str) : Str :=
  ((s.dropWhile isJsWs).reverse.dropWhile isJsWs).reverse

/-- Model of `String.prototype.toLowerCase`, restricted to ASCII and the Latin-1
accented capitals that occur in the French headers handled by the code. -/
def jsLowerChar (c : Char) : Char :=
  if 'A' ≤ c ∧ c ≤ 'Z' then Char.ofNat (c.toNat + 32)
  else if Char.ofNat 0xC0 ≤ c ∧ c ≤ Char.ofNat 0xDE ∧ c ≠ Char.ofNat 0xD7 then
    Char.ofNat (c.toNat + 32)
  else c

/-- Lower-case an entire string, character by character. -/
def jsLower (s : Str) : Str := s.map jsLowerChar

/-- Unicode NFD decomposition of one character, restricted to the Latin-1
accented letters that occur in the French sheet/column names the code
normalizes (`String.prototype.normalize('NFD')` on those letters).
Characters outside the table decompose to themselves. -/
def nfdChar (c : Char) : Str :=
  let acute := Char.ofNat 0x301
  let grave := Char.ofNat 0x300
  let circ := Char.ofNat 0x302
  let uml := Char.ofNat 0x308
  let tilde := Char.ofNat 0x303
  let ring := Char.ofNat 0x30A
  let ced := Char.ofNat 0x327
  if c = 'à' then ['a', grave] else if c = 'á' then ['a', acute]
  else if c = 'â' then ['a', circ] else if c = 'ã' then ['a', tilde]
  else if c = 'ä' then ['a', uml] else if c = 'å' then ['a', ring]
  else if c = 'ç' then ['c', ced]
  else if c = 'è' then ['e', grave] else if c = 'é' then ['e', acute]
  else if c = 'ê' then ['e', circ] else if c = 'ë' then ['e', uml]
  else if c = 'ì' then ['i', grave] else if c = 'í' then ['i', acute]
  else if c = 'î' then ['i', circ] else if c = 'ï' then ['i', uml]
  else if c = 'ñ' then ['n', tilde]
  else if c = 'ò' then ['o', grave] else if c = 'ó' then ['o', acute]
  else if c = 'ô' then ['o', circ] else if c = 'õ' then ['o', tilde]
  else if c = 'ö' then ['o', uml]
  else if c = 'ù' then ['u', grave] else if c = 'ú' then ['u', acute]
  else if c = 'û' then ['u', circ] else if c = 'ü' then ['u', uml]
  else if c = 'ý' then ['y', acute] else if c = 'ÿ' then ['y', uml]
  else [c]

/-- A combining diacritical mark (U+0300–U+036F), the range the code
removes with `.replace(/[̀-ͯ]/g, '')`. -/
def isCombiningMark (c : Char) : Bool :=
  0x300 ≤ c.toNat ∧ c.toNat ≤ 0x36F

/-- Function `normalizeString` from `excel-parser.ts`: lower-case, NFD-decompose,
then strip combining marks. -/
def normalizeString (s : Str) : Str :=
  ((jsLower s).flatMap nfdChar).filter (fun c => ¬ isCombiningMark c)

/-- Whether `needle` occurs at the start of `hay` (JS `String.prototype.startsWith`). -/
def startsWithStr (hay needle : Str) : Bool :=
  needle.isPrefixOf hay

/-- Model of `String.prototype.includes`: `needle` occurs somewhere in `hay`. -/
def containsStr (hay needle : Str) : Bool :=
  match hay with
  | [] => needle.isEmpty
  | _ :: rest => startsWithStr hay needle || containsStr rest needle

/-- Case-insensitive prefix test (for the `i` regex flag). -/
def startsWithCI (hay needle : Str) : Bool :=
  needle.isPrefixOf (jsLower hay)

/-- Numeric value of a digit string (the value `parseInt` gives an
all-digit string). -/
def digitsVal (s : Str) : ℕ :=
  s.foldl (fun a c => 10 * a + (c.toNat - 48)) 0

/-- The character class `[\d.-]` of the location regex. -/
def numClass (c : Char) : Bool :=
  c.isDigit ∨ c = '.' ∨ c = '-'

/-- JavaScript `parseFloat`, restricted to inputs drawn from the regex
class `[\d.-]` (no exponents or `Infinity` can occur there): optional
sign, longest run of digits, optionally a dot and a further run of
digits; `NaN` (here `none`) when no digit was consumed. -/
def parseFloatQ (s : Str) : Option ℚ :=
  let s1 := s.dropWhile isJsWs
  let sgn : ℚ × Str :=
    match s1 with
    | '-' :: t => (-1, t)
    | '+' :: t => (1, t)
    | _ => (1, s1)
  let ds := sgn.2.takeWhile Char.isDigit
  let rest := sgn.2.drop ds.length
  match rest with
  | '.' :: t =>
    let fs := t.takeWhile Char.isDigit
    if ds = [] ∧ fs = [] then none
    else some (sgn.1 * ((digitsVal ds : ℚ) + (digitsVal fs : ℚ) / (10 : ℚ) ^ fs.length))
  | _ =>
    if ds = [] then none else some (sgn.1 * (digitsVal ds : ℚ))

/-- One attempt of the regex `Long:\s*([\d.-]+)\s*Lat:\s*([\d.-]+)` at the
position just after a `Long:` occurrence.  Whitespace runs and the
digit-class runs are deterministic here: each class is disjoint from the
character that must follow it, so the usual greedy backtracking can never
recover after the maximal run fails. -/
def tryCoordsAt (t : Str) : Option (Str × Str) :=
  let t1 := t.dropWhile isJsWs
  let num1 := t1.takeWhile numClass
  if num1 = [] then none
  else
    let r1 := (t1.drop num1.length).dropWhile isJsWs
    if startsWithCI r1 ("lat:".toList) then
      let r2 := (r1.drop 4).dropWhile isJsWs
      let num2 := r2.takeWhile numClass
      if num2 = [] then none else some (num1, num2)
    else none

/-- The search performed by `locationStr.match(LOCATION_REGEX)`: try each
`Long:` occurrence left to right and return the two capture groups of the
first position where the whole pattern matches. -/
def findCoords : Str → Option (Str × Str)
  | [] => none
  | c :: rest =>
    if startsWithCI (c :: rest) ("long:".toList) then
      match tryCoordsAt ((c :: rest).drop 5) with
      | some p => some p
      | none => findCoords rest
    else findCoords rest

/-- The characters excluded by the class `[^\s)]`. -/
def cellClass (c : Char) : Bool := ¬ (isJsWs c ∨ c = ')')

/-- The search of `/Cell:\s*([^\s)]+)/i`: first `Cell:` occurrence whose
following run of non-whitespace, non-`)` characters is non-empty. -/
def findCellId : Str → Option Str
  | [] => none
  | c :: rest =>
    if startsWithCI (c :: rest) ("cell:".toList) then
      let r := ((c :: rest).drop 5).dropWhile isJsWs
      let cap := r.takeWhile cellClass
      if cap = [] then findCellId rest else some cap
    else findCellId rest

/-- The search of `/Azimut:\s*([^\s)]*)/i`: the starred class always
matches, so the first `Azimut:` occurrence wins and may capture `[]`. -/
def findAzimut : Str → Option Str
  | [] => none
  | c :: rest =>
    if startsWithCI (c :: rest) ("azimut:".toList) then
      some ((((c :: rest).drop 7).dropWhile isJsWs).takeWhile cellClass)
    else findAzimut rest

/-- Prefix of `s` before the first occurrence of `pat`
(`s.split(pat)[0]`, case-sensitive); the whole string if `pat` is absent. -/
def beforeFirst (s pat : Str) : Str :=
  match s with
  | [] => []
  | c :: rest =>
    if startsWithStr (c :: rest) pat then []
    else c :: beforeFirst rest pat

/-- Decoded cell-site location (`LocationData` in `types.ts`). -/
structure LocationData where
  siteName : Str
  cellId : Str
  longitude : ℚ
  latitude : ℚ
  azimuth : Str
deriving DecidableEq, Repr

/-- The site-name fallback chain of `parseLocationString`. -/
def siteNameOf (s : Str) : Str :=
  let sn := jsTrim (s.takeWhile (fun c => c ≠ '('))
  let sn2 :=
    if sn = [] ∨ containsStr (jsLower sn) ("long:".toList) then
      jsTrim (beforeFirst s ("Long:".toList))
    else sn
  if sn2 = [] then "Site inconnu".toList else sn2

/-- The azimuth extraction of `parseLocationString`
(`azimuthMatch ? azimuthMatch[1] || '-' : '-'`). -/
def azimuthOf (s : Str) : Str :=
  match findAzimut s with
  | some a => if a = [] then "-".toList else a
  | none => "-".toList

/-- Function `parseLocationString` from `excel-parser.ts`. -/
def parseLocationString (s : Str) : Option LocationData :=
  if s = [] ∨ s = "--".toList ∨ jsTrim s = [] ∨ s = "Site inconnu".toList then
    none
  else
    match findCoords s with
    | some (xs, ys) =>
      match parseFloatQ xs, parseFloatQ ys with
      | some lon, some lat =>
        if lat < -90 ∨ 90 < lat ∨ lon < -180 ∨ 180 < lon then none
        else some {
          siteName := siteNameOf s
          cellId := (findCellId s).getD []
          longitude := lon
          latitude := lat
          azimuth := azimuthOf s }
      | some _, none => none
      | none, _ => none
    | none => none

/-- Function `normalizePhoneNumber` from `excel-parser.ts`, on string input: the
falsy guard, trim, strip a leading `"237"`, keep only digits. -/
def normalizePhoneNumber (s : Str) : Str :=
  if s = [] then []
  else
    (if startsWithStr (jsTrim s) ("237".toList) then (jsTrim s).drop 3
     else jsTrim s).filter Char.isDigit

/-- A spreadsheet cell value as seen by the parser after
`XLSX.utils.sheet_to_json` (with `cellDates: true`): absent/empty, a
string, a number, or a `Date` (epoch milliseconds). -/
inductive CellValue where
  | empty : CellValue
  | str : Str → CellValue
  | num : ℚ → CellValue
  | date : ℤ → CellValue
deriving DecidableEq, Repr

/-- JavaScript falsiness of a cell value (`''`, `0`, `null`/`undefined`;
`Date` objects are always truthy). -/
def jsFalsy : CellValue → Bool
  | .empty => true
  | .str s => s = []
  | .num q => q = 0
  | .date _ => false

/-- Behaviour supplied by the JavaScript runtime and external libraries,
over which every theorem is universally quantified: number→string
rendering, `Date`→string rendering, `toLocaleDateString('fr-FR')`,
the generic `new Date(string)` fallback parse (ISO 8601 and the other
implementation-defined forms; `none` = Invalid Date), and
`XLSX.SSF.parse_date_code` composed with `Date` construction for numeric
spreadsheet serials (`none` when the library yields no date object). -/
structure Js where
  numRender : ℚ → Str
  dateRender : ℤ → Str
  localeDate : ℤ → Str
  isoParse : Str → Option ℤ
  excelSerial : ℚ → Option ℤ

/-- The `String(value)` coercion of a cell value. -/
def jsToString (js : Js) : CellValue → Str
  | .empty => []
  | .str s => s
  | .num q => js.numRender q
  | .date t => js.dateRender t

/-- The read `String(row[col] || '').trim()` as used throughout the extractor. -/
def cellText (js : Js) (v : CellValue) : Str :=
  jsTrim (jsToString js (if jsFalsy v then .str [] else v))

/-- Days from the civil epoch 1970-01-01 for a (proleptic Gregorian)
year/month/day, months 1–12; the standard era-based computation. -/
def daysFromCivil (y m d : ℤ) : ℤ :=
  let y' := if m ≤ 2 then y - 1 else y
  let era := y'.fdiv 400
  let yoe := y' - era * 400
  let mp := if 2 < m then m - 3 else m + 9
  let doy := (153 * mp + 2).fdiv 5 + d - 1
  let doe := yoe * 365 + yoe.fdiv 4 - yoe.fdiv 100 + doy
  era * 146097 + doe - 719468

/-- Model of `new Date(y, mo, d, h, mi, s).getTime()` with
the host time zone modelled as UTC: two-digit years map to 19xx, out of
range month/day/time fields roll over, exactly as JavaScript's `MakeDay`/
`MakeTime` prescribe. -/
def mkDateMs (y m d H M S : ℤ) : ℤ :=
  let yy := if 0 ≤ y ∧ y ≤ 99 then 1900 + y else y
  let ya := yy + m.fdiv 12
  let mo := m.emod 12
  let days := daysFromCivil ya (mo + 1) 1 + (d - 1)
  (((days * 24 + H) * 60 + M) * 60 + S) * 1000

/-- One attempt, at a fixed position, of the date regex
`(\d{2}) (\d{2}) (\d{4})\s+(\d{2}):(\d{2}):(\d{2})` with the slash or
dash separator `sep` between the first three groups.  All pieces are fixed-width except `\s+`, whose class is disjoint
from the digit that must follow, so matching is deterministic. -/
def tryDateAt (sep : Char) (s : Str) : Option (ℤ × ℤ × ℤ × ℤ × ℤ × ℤ) :=
  match s with
  | d1 :: d2 :: s1 :: m1 :: m2 :: s2 :: y1 :: y2 :: y3 :: y4 :: rest =>
    if d1.isDigit ∧ d2.isDigit ∧ s1 = sep ∧ m1.isDigit ∧ m2.isDigit ∧ s2 = sep ∧
       y1.isDigit ∧ y2.isDigit ∧ y3.isDigit ∧ y4.isDigit then
      let ws := rest.takeWhile isJsWs
      if ws = [] then none
      else
        match rest.drop ws.length with
        | h1 :: h2 :: c1 :: n1 :: n2 :: c2 :: e1 :: e2 :: _ =>
          if h1.isDigit ∧ h2.isDigit ∧ c1 = ':' ∧ n1.isDigit ∧ n2.isDigit ∧
             c2 = ':' ∧ e1.isDigit ∧ e2.isDigit then
            some ((digitsVal [d1, d2] : ℤ), (digitsVal [m1, m2] : ℤ),
                  (digitsVal [y1, y2, y3, y4] : ℤ), (digitsVal [h1, h2] : ℤ),
                  (digitsVal [n1, n2] : ℤ), (digitsVal [e1, e2] : ℤ))
          else none
        | _ => none
    else none
  | _ => none

/-- Unanchored search of the date regex: leftmost position wins. -/
def findDate (sep : Char) : Str → Option (ℤ × ℤ × ℤ × ℤ × ℤ × ℤ)
  | [] => none
  | c :: rest =>
    match tryDateAt sep (c :: rest) with
    | some r => some r
    | none => findDate sep rest

/-- Function `parseExcelDate` from `excel-parser.ts`: falsy → null; `Date`
instance passed through; numeric serial via the `XLSX.SSF` decoder;
string via `DD/MM/YYYY HH:MM:SS`, then `DD-MM-YYYY HH:MM:SS` (captured
day/month/year fed to the `Date` constructor with the month made
0-based), then the generic `Date` fallback parse. -/
def parseExcelDate (js : Js) : CellValue → Option ℤ
  | .empty => none
  | .date t => some t
  | .num q => if q = 0 then none else js.excelSerial q
  | .str s =>
    if s = [] then none
    else
      match findDate '/' s with
      | some (d, m, y, H, M, S) => some (mkDateMs y (m - 1) d H M S)
      | none =>
        match findDate '-' s with
        | some (d, m, y, H, M, S) => some (mkDateMs y (m - 1) d H M S)
        | none => js.isoParse s

/-- Function `detectFileType` from `excel-parser.ts`. -/
def detectFileType (sheetNames : List Str) : Str :=
  let normalizedNames := sheetNames.map normalizeString
  if normalizedNames.any (fun n =>
      containsStr n ("listing appel".toList) || containsStr n ("listing sms".toList)) then
    "NUMERO".toList
  else if normalizedNames.any (fun n => containsStr n ("imei partage".toList)) then
    "IMEI".toList
  else "CC".toList

/-- The pair of listing sheets found by `findListingSheets`. -/
structure ListingSheets where
  calls : Option Str
  sms : Option Str
deriving DecidableEq, Repr

/-- One step of the `findListingSheets` scan over one sheet name. -/
def listingStep (st : ListingSheets) (name : Str) : ListingSheets :=
  let normalized := normalizeString name
  let st1 :=
    if containsStr normalized ("listing appel".toList) then
      { st with calls := some name } else st
  let st2 :=
    if containsStr normalized ("listing sms".toList) then
      { st1 with sms := some name } else st1
  if normalized = "listing".toList ∧ st2.calls = none then
    { st2 with calls := some name } else st2

/-- Function `findListingSheets` from `excel-parser.ts`: scan all sheet names,
assigning the calls/SMS sheets and the exact-`"listing"` fallback. -/
def findListingSheets (sheetNames : List Str) : ListingSheets :=
  sheetNames.foldl listingStep ⟨none, none⟩

/-- Function `findSubscribersSheet` from `excel-parser.ts`: first sheet whose
normalized name contains `"identification"`. -/
def findSubscribersSheet (sheetNames : List Str) : Option Str :=
  sheetNames.find? (fun n => containsStr (normalizeString n) ("identification".toList))

/-- The six role slots produced by `identifyColumns`. -/
structure Cols where
  callerNumberCol : Option Str
  calledNumberCol : Option Str
  imeiCol : Option Str
  dateCol : Option Str
  durationCol : Option Str
  locationCol : Option Str
deriving DecidableEq, Repr

/-- One step of the `identifyColumns` loop: the if/else-if cascade over
one header (first rule that fires assigns the column, overwriting any
earlier holder of the same role). -/
def colStep (st : Cols) (col : Str) : Cols :=
  let normalized := normalizeString col
  if containsStr normalized ("localisation".toList) then
    { st with locationCol := some col }
  else if containsStr normalized ("imei".toList) then
    { st with imeiCol := some col }
  else if startsWithStr normalized ("numero appelant".toList) ∨
          startsWithStr normalized ("numero emetteur".toList) then
    { st with callerNumberCol := some col }
  else if startsWithStr normalized ("numero appele".toList) ∨
          startsWithStr normalized ("numero recepteur".toList) then
    { st with calledNumberCol := some col }
  else if containsStr normalized ("date".toList) then
    { st with dateCol := some col }
  else if containsStr normalized ("duree".toList) then
    { st with durationCol := some col }
  else st

/-- Function `identifyColumns` from `excel-parser.ts`. -/
def identifyColumns (columns : List Str) : Cols :=
  columns.foldl colStep ⟨none, none, none, none, none, none⟩

/-- A sheet row after `XLSX.utils.sheet_to_json(ws, { defval: '' })`:
an association of column headers to cell values, in column order. -/
abbrev Row := List (Str × CellValue)

/-- The `row[col]` access; columns absent from the row read as the `defval`
empty string. -/
def rowGet (row : Row) (col : Str) : CellValue :=
  match row.find? (fun kv => kv.1 = col) with
  | some kv => kv.2
  | none => .str []

/-- One extracted call/SMS record (`CallRecord` in `types.ts`).  The
`dateTime` field is typed `Date` in TypeScript but the aggregator still
guards against null, so it is modelled as an `Option`. -/
structure CallRecord where
  id : Str
  callerNumber : Str
  calledNumber : Str
  imei : Str
  dateTime : Option ℤ
  duration : Str
  location : Option LocationData
  rawLocation : Str
deriving DecidableEq, Repr

/-- Function `normalizePhoneNumber` applied to a raw cell value (the function's
`unknown` entry point: falsy cells yield the empty string, everything
else is coerced with `String(...)` first). -/
def normalizePhoneCell (js : Js) (v : CellValue) : Str :=
  if jsFalsy v then [] else normalizePhoneNumber (jsToString js v)

/-- Function `parseListingSheet` from `excel-parser.ts`.  `now` is the clock value
`new Date()` would produce during this parse and `mkId` the generated
per-row identifier (`record-${i}-${Date.now()}-${random}`, opaque here).
Rows contribute a record only when at least one of the two normalized
numbers is non-empty; a null parsed date is replaced by `now`. -/
def parseListingSheet (js : Js) (now : ℤ) (mkId : ℕ → Str) (data : List Row) :
    List CallRecord :=
  match data with
  | [] => []
  | first :: _ =>
    let columns := first.map (fun kv => kv.1)
    let cols := identifyColumns columns
    (data.enum).filterMap (fun iRow =>
      let row := iRow.2
      let callerNumber :=
        match cols.callerNumberCol with
        | some c => normalizePhoneCell js (rowGet row c)
        | none => []
      let calledNumber :=
        match cols.calledNumberCol with
        | some c => normalizePhoneCell js (rowGet row c)
        | none => []
      let imei :=
        match cols.imeiCol with
        | some c => cellText js (rowGet row c)
        | none => []
      let dateTime :=
        match cols.dateCol with
        | some c => parseExcelDate js (rowGet row c)
        | none => none
      let duration :=
        match cols.durationCol with
        | some c => cellText js (rowGet row c)
        | none => []
      let locationStr :=
        match cols.locationCol with
        | some c => cellText js (rowGet row c)
        | none => []
      let location := parseLocationString locationStr
      if callerNumber ≠ [] ∨ calledNumber ≠ [] then
        some {
          id := mkId iRow.1
          callerNumber := callerNumber
          calledNumber := calledNumber
          imei := imei
          dateTime := some (dateTime.getD now)
          duration := duration
          location := location
          rawLocation := locationStr }
      else none)

/-- One subscriber-identification row (`SubscriberInfo` in `types.ts`). -/
structure SubscriberInfo where
  number : Str
  fullName : Str
  birthDate : Option Str
  cniNumber : Option Str
  cniExpiration : Option Str
  address : Option Str
deriving DecidableEq, Repr

/-- The header/value assignment cascade of `parseSubscribersSheet` for
one `[key, value]` entry. -/
def subscriberStep (js : Js) (sub : SubscriberInfo) (kv : Str × CellValue) :
    SubscriberInfo :=
  let normalizedKey := normalizeString kv.1
  if normalizedKey = "numero".toList ∨
     (startsWithStr normalizedKey ("numero".toList) ∧
      ¬ containsStr normalizedKey ("cni".toList)) then
    if sub.number = [] then { sub with number := normalizePhoneCell js kv.2 } else sub
  else if containsStr normalizedKey ("nom".toList) ∧
          containsStr normalizedKey ("prenom".toList) then
    { sub with fullName := cellText js kv.2 }
  else if containsStr normalizedKey ("date".toList) ∧
          containsStr normalizedKey ("naissance".toList) then
    { sub with birthDate := (parseExcelDate js kv.2).map js.localeDate }
  else if containsStr normalizedKey ("numero".toList) ∧
          containsStr normalizedKey ("cni".toList) then
    { sub with cniNumber := some (cellText js kv.2) }
  else if containsStr normalizedKey ("expiration".toList) then
    { sub with cniExpiration := (parseExcelDate js kv.2).map js.localeDate }
  else if normalizedKey = "adresse".toList then
    { sub with address := some (cellText js kv.2) }
  else sub

/-- Function `parseSubscribersSheet` from `excel-parser.ts`: scan every row's
entries, keep the row only if a phone number was found. -/
def parseSubscribersSheet (js : Js) (data : List Row) : List SubscriberInfo :=
  data.filterMap (fun row =>
    let sub := row.foldl (subscriberStep js) ⟨[], [], none, none, none, none⟩
    if sub.number ≠ [] then some sub else none)

/-- The per-number rollup entity (`PhoneNumber` in `types.ts`). -/
structure PhoneAgg where
  number : Str
  identity : Option Str
  callCount : ℕ
  smsCount : ℕ
  firstActivity : Option ℤ
  lastActivity : Option ℤ
  locations : List LocationData
  records : List CallRecord
deriving DecidableEq, Repr

/-- The SMS marker test of the aggregator:
`record.duration === 'SMS' || record.duration.toLowerCase() === 'sms'`. -/
def isSmsDur (d : Str) : Bool :=
  d = "SMS".toList || jsLower d = "sms".toList

/-- The epsilon-box duplicate test used inside one aggregate:
`|Δlat| < 0.0001 ∧ |Δlng| < 0.0001`. -/
def closeLoc (a b : LocationData) : Bool :=
  |a.latitude - b.latitude| < 1 / 10000 ∧ |a.longitude - b.longitude| < 1 / 10000

/-- Folding one record into its aggregate: bump the SMS or call counter,
update the running activity window over non-null timestamps, append the
location unless an epsilon-duplicate exists, append the record. -/
def foldRecord (p : PhoneAgg) (r : CallRecord) : PhoneAgg :=
  let p1 :=
    if isSmsDur r.duration then { p with smsCount := p.smsCount + 1 }
    else { p with callCount := p.callCount + 1 }
  let p2 :=
    match r.dateTime with
    | none => p1
    | some t =>
      { p1 with
        firstActivity :=
          match p1.firstActivity with
          | none => some t
          | some f => if t < f then some t else some f
        lastActivity :=
          match p1.lastActivity with
          | none => some t
          | some l => if l < t then some t else some l }
  let p3 :=
    match r.location with
    | none => p2
    | some loc =>
      if p2.locations.any (fun l => closeLoc l loc) then p2
      else { p2 with locations := p2.locations ++ [loc] }
  { p3 with records := p3.records ++ [r] }

/-- Lookup in the insertion-ordered map modelling the JS `Map`. -/
def mapLookup (m : List (Str × PhoneAgg)) (k : Str) : Option PhoneAgg :=
  (m.find? (fun kv => kv.1 = k)).map (fun kv => kv.2)

/-- Model of `Map.prototype.set`: replace the value in place if the key exists,
otherwise append a new entry (insertion order preserved). -/
def mapSet (m : List (Str × PhoneAgg)) (k : Str) (v : PhoneAgg) :
    List (Str × PhoneAgg) :=
  match m with
  | [] => [(k, v)]
  | (k', v') :: rest =>
    if k' = k then (k, v) :: rest else (k', v') :: mapSet rest k v

/-- The subscriber `Map` lookup (`new Map(subscribers.map(s => [s.number, s]))`
followed by `get`): with duplicate keys the last insertion wins. -/
def subLookup (subscribers : List SubscriberInfo) (n : Str) : Option SubscriberInfo :=
  subscribers.reverse.find? (fun s => s.number = n)

/-- The fresh aggregate created the first time a number is seen. -/
def initPhone (subscribers : List SubscriberInfo) (n : Str) : PhoneAgg :=
  { number := n
    identity := (subLookup subscribers n).map (fun s => s.fullName)
    callCount := 0
    smsCount := 0
    firstActivity := none
    lastActivity := none
    locations := []
    records := [] }

/-- The body of the aggregation loop for one record: numbers that are
empty or shorter than 6 characters are skipped, otherwise the (possibly
fresh) aggregate for the caller number is updated. -/
def aggStep (subscribers : List SubscriberInfo) (m : List (Str × PhoneAgg))
    (r : CallRecord) : List (Str × PhoneAgg) :=
  let n := r.callerNumber
  if n = [] ∨ n.length < 6 then m
  else
    let base := (mapLookup m n).getD (initPhone subscribers n)
    mapSet m n (foldRecord base r)

/-- The ascending sort key of the final per-aggregate record sort:
`a.dateTime?.getTime() || 0`. -/
def recKey (r : CallRecord) : ℤ := r.dateTime.getD 0

/-- The comparator-induced order of `records.sort((a, b) => keyA - keyB)`. -/
def recLE (a b : CallRecord) : Bool := recKey a ≤ recKey b

/-- The stable sort of `Array.prototype.sort`, modelled by insertion
sort: for a stable sort the output is uniquely determined by the
comparator and the input order, so any stable sorting algorithm is
extensionally the JavaScript one. -/
def sortRecords (records : List CallRecord) : List CallRecord :=
  List.insertionSort (fun a b => recLE a b = true) records

/-- Function `aggregateByPhoneNumber` from `excel-parser.ts`: fold every record
into the map, then sort each aggregate's record list by timestamp. -/
def aggregateByPhoneNumber (records : List CallRecord)
    (subscribers : List SubscriberInfo) : List (Str × PhoneAgg) :=
  (records.foldl (aggStep subscribers) []).map
    (fun kv => (kv.1, { kv.2 with records := sortRecords kv.2.records }))

/-- The result of one whole-file parse (`ParsedExcelData` in `types.ts`). -/
structure ParsedExcelData where
  fileName : Str
  fileType : Str
  phoneNumbers : List (Str × PhoneAgg)
  allRecords : List CallRecord
  subscribers : List SubscriberInfo

/-- A workbook: sheet names mapped to sheet rows, in workbook order. -/
abbrev WorkBook := List (Str × List Row)

/-- Rows of a named sheet of the workbook. -/
def sheetRows (wb : WorkBook) (name : Str) : List Row :=
  match wb.find? (fun kv => kv.1 = name) with
  | some kv => kv.2
  | none => []

/-- The in-place SMS stamping of `parseExcelFile`: records coming from
the SMS sheet whose duration is empty get the literal duration `"SMS"`. -/
def stampSms (r : CallRecord) : CallRecord :=
  if r.duration = [] then { r with duration := "SMS".toList } else r

/-- Function `parseExcelFile` from `excel-parser.ts`: classify the workbook, parse
the calls sheet, parse and stamp the SMS sheet, parse the subscriber
sheet, aggregate.  `now`/`mkId` are threaded to the extractor as in
`parseListingSheet`. -/
def parseExcelFile (js : Js) (now : ℤ) (mkId : ℕ → Str) (fileName : Str)
    (wb : WorkBook) : ParsedExcelData :=
  let sheetNames := wb.map (fun kv => kv.1)
  let fileType := detectFileType sheetNames
  let listing := findListingSheets sheetNames
  let callRecords :=
    match listing.calls with
    | some name => parseListingSheet js now mkId (sheetRows wb name)
    | none => []
  let smsRecords :=
    match listing.sms with
    | some name => (parseListingSheet js now mkId (sheetRows wb name)).map stampSms
    | none => []
  let allRecords := callRecords ++ smsRecords
  let subscribers :=
    match findSubscribersSheet sheetNames with
    | some name => parseSubscribersSheet js (sheetRows wb name)
    | none => []
  { fileName := fileName
    fileType := fileType
    phoneNumbers := aggregateByPhoneNumber allRecords subscribers
    allRecords := allRecords
    subscribers := subscribers }

/-- A record as it crosses the serialization boundary into the UI
(`PhoneData.records` element in `page.tsx`): the timestamp is now an ISO
string. -/
structure SerialRecord where
  id : Str
  callerNumber : Str
  calledNumber : Str
  dateTime : Str
  duration : Str
  location : Option LocationData
  rawLocation : Str
deriving DecidableEq, Repr

/-- A per-number aggregate as received by the UI (`PhoneData` in
`page.tsx`). -/
structure PhoneData where
  number : Str
  identity : Option Str
  operatorName : Option Str
  callCount : ℕ
  smsCount : ℕ
  firstActivity : Option Str
  lastActivity : Option Str
  locations : List LocationData
  records : List SerialRecord
deriving DecidableEq, Repr

/-- The comparator order of the merger's record sort,
`(a, b) => new Date(a.dateTime).getTime() - new Date(b.dateTime).getTime()`:
when either timestamp fails to parse the subtraction is `NaN`, which the
sort treats as `0` (the elements compare equal both ways). -/
def serialLE (js : Js) (a b : SerialRecord) : Bool :=
  match js.isoParse a.dateTime, js.isoParse b.dateTime with
  | some x, some y => x ≤ y
  | _, _ => true

/-- The merger's location-union step: walk the incoming locations and
append each one unless a location with exactly equal latitude and
longitude is already present (`l.latitude === loc.latitude &&
l.longitude === loc.longitude`). -/
def addLocExact (acc : List LocationData) (loc : LocationData) : List LocationData :=
  if acc.any (fun l => l.latitude = loc.latitude ∧ l.longitude = loc.longitude) then acc
  else acc ++ [loc]

/-- Merging one further file's entry into the already-seen entry for the
same number (`handleUploadComplete`, the `existing` branch): counts sum,
record lists concatenate and re-sort, locations union with the
exact-equality test; every other field of the existing entry is left
untouched. -/
def mergePhone (js : Js) (existing phone : PhoneData) : PhoneData :=
  { existing with
    callCount := existing.callCount + phone.callCount
    smsCount := existing.smsCount + phone.smsCount
    records := List.insertionSort (fun a b => serialLE js a b = true)
      (existing.records ++ phone.records)
    locations := phone.locations.foldl addLocExact existing.locations }

/-- Fold one incoming aggregate into the accumulated list: the first
entry with the same number (`allPhoneNumbers.find`) is merged in place,
otherwise the aggregate is appended. -/
def mergeInto (js : Js) : List PhoneData → PhoneData → List PhoneData
  | [], phone => [phone]
  | p :: rest, phone =>
    if p.number = phone.number then mergePhone js p phone :: rest
    else p :: mergeInto js rest phone

/-- The multi-file merge of `handleUploadComplete`: every successful
file's aggregate list is folded, in order, into one unified list. -/
def mergeAll (js : Js) (files : List (List PhoneData)) : List PhoneData :=
  files.flatten.foldl (mergeInto js) []

/-! ## Claim-side characterizations and concrete evaluation data -/

/-- The null-result condition of the Location-String Decoder as the spec
states it: empty, whitespace-only, a literal placeholder, no match of
the coordinate pattern, an unparseable coordinate, or a coordinate out
of geographic range. -/
def noLocCond (s : Str) : Prop :=
  s = [] ∨ jsTrim s = [] ∨ s = "--".toList ∨ s = "Site inconnu".toList ∨
  findCoords s = none ∨
  ∃ xs ys, findCoords s = some (xs, ys) ∧
    (parseFloatQ xs = none ∨ parseFloatQ ys = none ∨
     ∃ lon lat, parseFloatQ xs = some lon ∧ parseFloatQ ys = some lat ∧
       (lat < -90 ∨ 90 < lat ∨ lon < -180 ∨ 180 < lon))

/-- The semantic column roles of the Column Inferencer. -/
inductive ColumnRole where
  | caller | called | imei | date | dur | location
deriving DecidableEq, Repr

/-- The fixed-priority classification of one header, as the spec's rule
table states it: first matching rule wins, unmatched headers get no role. -/
def classifyHeader (col : Str) : Option ColumnRole :=
  let normalized := normalizeString col
  if containsStr normalized ("localisation".toList) then some .location
  else if containsStr normalized ("imei".toList) then some .imei
  else if startsWithStr normalized ("numero appelant".toList) ∨
          startsWithStr normalized ("numero emetteur".toList) then some .caller
  else if startsWithStr normalized ("numero appele".toList) ∨
          startsWithStr normalized ("numero recepteur".toList) then some .called
  else if containsStr normalized ("date".toList) then some .date
  else if containsStr normalized ("duree".toList) then some .dur
  else none

/-- The last header (in iteration order) classified into a given role. -/
def lastRole (columns : List Str) (ρ : ColumnRole) : Option Str :=
  (columns.filter (fun c => classifyHeader c = some ρ)).getLast?

/-- The last sheet name whose normalized form contains `pat`. -/
def lastContaining (pat : Str) (names : List Str) : Option Str :=
  (names.filter (fun n => containsStr (normalizeString n) pat)).getLast?

/-- The first sheet name whose normalized form is exactly `"listing"`. -/
def firstExactListing (names : List Str) : Option Str :=
  names.find? (fun n => normalizeString n = "listing".toList)

/-- A concrete runtime-primitive instantiation for closed evaluations:
every external parse fails and every rendering is empty.  (The concrete
inputs below never reach these primitives with data whose result
matters: the date strings used are not dates under any JavaScript
implementation.) -/
def js0 : Js :=
  { numRender := fun _ => []
    dateRender := fun _ => []
    localeDate := fun _ => []
    isoParse := fun _ => none
    excelSerial := fun _ => none }

/-- A concrete row-identifier generator for closed evaluations. -/
def mkId0 : ℕ → Str := fun n => [Char.ofNat (48 + n)]

/-- A listing row whose date cell matches none of the accepted shapes. -/
def rowBadDate : Row :=
  [("Numero Appelant".toList, .str "699123456".toList),
   ("Numero Appele".toList, .str "655333444".toList),
   ("Date".toList, .str "definitely, not a date!".toList),
   ("Duree".toList, .str "00:01:30".toList)]

/-- A cell-site location used by the merge counterexample (coordinates
are written as literal reduced fractions, 11.5 and 3.9, so that they are
kernel-computable). -/
def locA : LocationData :=
  { siteName := "A".toList, cellId := "1".toList
    longitude := ⟨23, 2, by decide, by decide⟩
    latitude := ⟨39, 10, by decide, by decide⟩, azimuth := "-".toList }

/-- A second location, within the epsilon box of `locA` (its latitude is
3.90005, so the latitudes differ by 1/20000 < 1/10000) but not exactly
equal to it. -/
def locB : LocationData :=
  { siteName := "B".toList, cellId := "2".toList
    longitude := ⟨23, 2, by decide, by decide⟩
    latitude := ⟨78001, 20000, by decide, by decide⟩, azimuth := "-".toList }

/-- A serialized call record for the merge counterexample. -/
def srA : SerialRecord :=
  { id := "a".toList, callerNumber := "699111222".toList, calledNumber := []
    dateTime := "2024-03-15T09:00:00".toList, duration := "00:01:30".toList
    location := some locA, rawLocation := [] }

/-- A second serialized call record, from the other file. -/
def srB : SerialRecord :=
  { id := "b".toList, callerNumber := "699111222".toList, calledNumber := []
    dateTime := "2024-03-16T09:00:00".toList, duration := "00:01:30".toList
    location := some locB, rawLocation := [] }

/-- File 1's aggregate for number 699111222: one call at `locA`. -/
def pdA : PhoneData :=
  { number := "699111222".toList, identity := none, operatorName := none
    callCount := 1, smsCount := 0
    firstActivity := some "2024-03-15T09:00:00".toList
    lastActivity := some "2024-03-15T09:00:00".toList
    locations := [locA], records := [srA] }

/-- File 2's aggregate for the same number: one call at `locB`. -/
def pdB : PhoneData :=
  { number := "699111222".toList, identity := some "Mme X".toList, operatorName := none
    callCount := 1, smsCount := 0
    firstActivity := some "2024-03-16T09:00:00".toList
    lastActivity := some "2024-03-16T09:00:00".toList
    locations := [locB], records := [srB] }

/-- The aggregate that the pipeline builds from `rowBadDate` (used to
instantiate hypotheses of the C2 theorem at a concrete input). -/
def c2Agg : PhoneAgg :=
  (mapLookup (aggregateByPhoneNumber (parseListingSheet js0 1700000000000 mkId0 [rowBadDate]) [])
    ("699123456".toList)).getD (initPhone [] [])

/-- A listing row with a well-formed date (concrete instantiation data). -/
def rowGood : Row :=
  [("Numero Appelant".toList, .str "699111222".toList),
   ("Date".toList, .str "15/03/2024 09:00:00".toList),
   ("Duree".toList, .str "00:01:30".toList)]

/-- A second row for the same caller, with an earlier timestamp, so the
final sort has something to do. -/
def rowGood2 : Row :=
  [("Numero Appelant".toList, .str "699111222".toList),
   ("Date".toList, .str "14/03/2024 10:00:00".toList),
   ("Duree".toList, .str "00:00:10".toList)]

/-- The aggregate built from `rowGood`/`rowGood2` (concrete instantiation
data for hypotheses about aggregation results). -/
def goodAgg : PhoneAgg :=
  (mapLookup (aggregateByPhoneNumber
      (parseListingSheet js0 0 mkId0 [rowGood, rowGood2]) [])
    ("699111222".toList)).getD (initPhone [] [])

/-- A one-sheet workbook whose single sheet is SMS-designated and whose
row has an empty duration cell. -/
def wb7 : WorkBook :=
  [("Listing SMS".toList,
    [[("Numero Appelant".toList, .str "699123456".toList),
      ("Duree".toList, .str [])]])]

/-- The record extracted from `wb7`'s SMS sheet, before stamping. -/
def c7Rec : CallRecord :=
  (parseListingSheet js0 0 mkId0
      (sheetRows wb7 ("Listing SMS".toList))).headD
    { id := [], callerNumber := [], calledNumber := [], imei := []
      dateTime := none, duration := [], location := none, rawLocation := [] }

/-- The aggregate `wb7` produces for its caller number. -/
def c7Agg : PhoneAgg :=
  (mapLookup (parseExcelFile js0 0 mkId0 ("f".toList) wb7).phoneNumbers
    ("699123456".toList)).getD (initPhone [] [])

/-- The entry produced by merging the two one-entry files `pdA`, `pdB`. -/
def mergedAB : PhoneData := (mergeAll js0 [[pdA], [pdB]]).headD pdB

/-- A concrete header list for instantiating the Column Inferencer
characterization, with a duplicate date header. -/
def cols8 : List Str :=
  ["Numero Appelant".toList, "Numero Appele".toList, "Date".toList,
   "Date Fin".toList, "Duree".toList, "Localisation du numero appelant".toList]

/-! ## Helper lemmas -/

theorem dropWhile_eq_self_of_head (p : Char → Bool) (l : Str)
    (h : ∀ c ∈ l, p c = false) : l.dropWhile p = l := by
  cases l with
  | nil => rfl
  | cons a t => simp [List.dropWhile_cons, h a (List.mem_cons_self a t)]

theorem digit_not_ws (c : Char) (h : c.isDigit = true) : isJsWs c = false := by
  cases hw : isJsWs c with
  | false => rfl
  | true =>
    exfalso
    simp only [isJsWs, decide_eq_true_eq] at hw
    rcases hw with h' | h' | h' | h' | h' | h' | h' | h' <;>
      (subst h'; exact absurd h (by decide))

theorem jsTrim_of_digits (s : Str) (h : ∀ c ∈ s, c.isDigit = true) :
    jsTrim s = s := by
  unfold jsTrim
  rw [dropWhile_eq_self_of_head _ _ (fun c hc => digit_not_ws c (h c hc)),
      dropWhile_eq_self_of_head _ _ (fun c hc =>
        digit_not_ws c (h c (List.mem_reverse.mp hc))),
      List.reverse_reverse]

theorem normalizePhoneNumber_all_digits (s : Str) :
    ∀ c ∈ normalizePhoneNumber s, c.isDigit = true := by
  intro c hc
  unfold normalizePhoneNumber at hc
  split at hc
  · simp at hc
  · exact List.of_mem_filter hc

theorem normalizePhoneNumber_of_digits (s : Str) (h : ∀ c ∈ s, c.isDigit = true) :
    normalizePhoneNumber s =
      if startsWithStr s ("237".toList) then s.drop 3 else s := by
  cases s with
  | nil => simp [normalizePhoneNumber, startsWithStr, List.isPrefixOf]
  | cons a t =>
    unfold normalizePhoneNumber
    rw [if_neg (by simp), jsTrim_of_digits _ h]
    by_cases hsw : startsWithStr (a :: t) ("237".toList) = true
    · rw [if_pos hsw]
      exact List.filter_eq_self.mpr (fun c hc => h c (List.mem_of_mem_drop hc))
    · rw [if_neg hsw]
      exact List.filter_eq_self.mpr h

/-- C4: the claim's idempotence law fails in general; a single
normalization of an input whose leading `237` is interrupted by a
non-digit produces a digit string that starts with `237`, which a second
normalization strips again. -/
theorem c4_normalize_counterexample :
    normalizePhoneNumber (normalizePhoneNumber ("2-37699123456".toList)) ≠
      normalizePhoneNumber ("2-37699123456".toList) := by decide

/-- C4 (amended): phone-number normalization is idempotent exactly on the
inputs whose normalized form does not start with the digits `237`; on any
other input the second application strips that prefix again. -/
theorem c4_normalize_idempotent_iff (x : Str) :
    normalizePhoneNumber (normalizePhoneNumber x) = normalizePhoneNumber x ↔
      startsWithStr (normalizePhoneNumber x) ("237".toList) = false := by
  have hd := normalizePhoneNumber_all_digits x
  rw [normalizePhoneNumber_of_digits _ hd]
  constructor
  · intro h
    cases hsw : startsWithStr (normalizePhoneNumber x) ("237".toList) with
    | false => rfl
    | true =>
      exfalso
      rw [hsw, if_pos rfl] at h
      have hlen := congrArg List.length h
      simp only [List.length_drop] at hlen
      have h3 : 3 ≤ (normalizePhoneNumber x).length := by
        have := List.IsPrefix.length_le (List.isPrefixOf_iff_prefix.mp hsw)
        simpa using this
      omega
  · intro h
    rw [h, if_neg (by simp)]

theorem getLast?_or_cons (l : List α) (a : α) :
    (a :: l).getLast? = l.getLast?.or (some a) := by
  induction l generalizing a with
  | nil => rfl
  | cons b t ih =>
    rw [List.getLast?_cons_cons, ih b]
    cases t.getLast? <;> rfl

theorem lastContaining_cons (pat n : Str) (rest : List Str) :
    lastContaining pat (n :: rest) =
      (lastContaining pat rest).or
        (if containsStr (normalizeString n) pat then some n else none) := by
  unfold lastContaining
  rw [List.filter_cons]
  by_cases h : containsStr (normalizeString n) pat = true
  · rw [if_pos h, if_pos h, getLast?_or_cons]
  · rw [if_neg h, if_neg (by simpa using h), Option.or_none]

theorem firstExactListing_cons (n : Str) (rest : List Str) :
    firstExactListing (n :: rest) =
      if normalizeString n = "listing".toList then some n
      else firstExactListing rest := by
  unfold firstExactListing
  by_cases h : normalizeString n = "listing".toList
  · rw [if_pos h, List.find?_cons_of_pos _ (by simpa using h)]
  · rw [if_neg h, List.find?_cons_of_neg _ (by simpa using h)]

theorem listingStep_calls (st : ListingSheets) (n : Str) :
    (listingStep st n).calls =
      if containsStr (normalizeString n) ("listing appel".toList) then some n
      else if normalizeString n = "listing".toList ∧ st.calls = none then some n
      else st.calls := by
  by_cases ha : containsStr (normalizeString n) ("listing appel".toList) = true <;>
    by_cases hs : containsStr (normalizeString n) ("listing sms".toList) = true <;>
      by_cases he : normalizeString n = "listing".toList <;>
        by_cases hn : st.calls = none <;>
          simp_all [listingStep]

theorem listingStep_sms (st : ListingSheets) (n : Str) :
    (listingStep st n).sms =
      if containsStr (normalizeString n) ("listing sms".toList) then some n
      else st.sms := by
  by_cases ha : containsStr (normalizeString n) ("listing appel".toList) = true <;>
    by_cases hs : containsStr (normalizeString n) ("listing sms".toList) = true <;>
      by_cases he : normalizeString n = "listing".toList <;>
        by_cases hn : st.calls = none <;>
          simp_all [listingStep]

theorem foldl_listingStep (names : List Str) : ∀ st : ListingSheets,
    (names.foldl listingStep st).calls =
      (lastContaining ("listing appel".toList) names).or
        (st.calls.or (firstExactListing names)) ∧
    (names.foldl listingStep st).sms =
      (lastContaining ("listing sms".toList) names).or st.sms := by
  induction names with
  | nil =>
    intro st
    constructor <;>
      simp [lastContaining, firstExactListing, Option.or_none]
  | cons n rest ih =>
    intro st
    rw [List.foldl_cons]
    obtain ⟨ihc, ihs⟩ := ih (listingStep st n)
    refine ⟨?_, ?_⟩
    · rw [ihc, listingStep_calls, lastContaining_cons, firstExactListing_cons]
      by_cases ha : containsStr (normalizeString n) ("listing appel".toList) = true <;>
        by_cases he : normalizeString n = "listing".toList <;>
          cases hc : st.calls <;>
            cases hl : lastContaining ("listing appel".toList) rest <;>
              simp_all [Option.or_none]
    · rw [ihs, listingStep_sms, lastContaining_cons]
      by_cases hs : containsStr (normalizeString n) ("listing sms".toList) = true <;>
        cases hl : lastContaining ("listing sms".toList) rest <;>
          simp_all [Option.or_none]

/-- C3: the claim's "first sheet wins" reading fails: with two sheets both
containing "listing appel", the scan assigns the calls sheet to the
second (last) one, not the first. -/
theorem c3_sheet_discovery_counterexample :
    (findListingSheets ["Listing Appel A".toList, "Listing Appel B".toList]).calls =
      some ("Listing Appel B".toList) ∧
    (findListingSheets ["Listing Appel A".toList, "Listing Appel B".toList]).calls ≠
      some ("Listing Appel A".toList) := by decide

/-- C3 (amended): listing-sheet discovery assigns, for each of the two
roles, the LAST sheet whose normalized name contains "listing appel"
(resp. "listing sms"), since each match overwrites the slot; a sheet
whose normalized name is exactly "listing" is used as the calls sheet
only when the slot is still empty at that point of the scan, so the
fallback resolves to the first exactly-"listing" sheet and only applies
when no sheet contains "listing appel" at all. -/
theorem c3_sheet_discovery_amended (names : List Str) :
    (findListingSheets names).calls =
      (lastContaining ("listing appel".toList) names).or
        (firstExactListing names) ∧
    (findListingSheets names).sms =
      lastContaining ("listing sms".toList) names := by
  obtain ⟨hc, hs⟩ := foldl_listingStep names ⟨none, none⟩
  exact ⟨by simpa using hc, by simpa [Option.or_none] using hs⟩

theorem foldRecord_records (p : PhoneAgg) (r : CallRecord) :
    (foldRecord p r).records = p.records ++ [r] := by
  unfold foldRecord
  by_cases hs : isSmsDur r.duration = true <;>
    cases hd : r.dateTime <;> cases hl : r.location <;>
      simp only [hs, hd, hl, if_true, if_false] <;>
        (repeat' split) <;> simp

theorem foldRecord_number (p : PhoneAgg) (r : CallRecord) :
    (foldRecord p r).number = p.number := by
  unfold foldRecord
  by_cases hs : isSmsDur r.duration = true <;>
    cases hd : r.dateTime <;> cases hl : r.location <;>
      simp only [hs, hd, hl, if_true, if_false] <;>
        (repeat' split) <;> simp

theorem foldRecord_counts (p : PhoneAgg) (r : CallRecord) :
    (foldRecord p r).smsCount =
      p.smsCount + (if isSmsDur r.duration then 1 else 0) ∧
    (foldRecord p r).callCount =
      p.callCount + (if isSmsDur r.duration then 0 else 1) := by
  unfold foldRecord
  by_cases hs : isSmsDur r.duration = true <;>
    cases hd : r.dateTime <;> cases hl : r.location <;>
      simp only [hs, hd, hl, if_true, if_false] <;>
        (repeat' split) <;> simp

theorem foldRecord_activity_of_dated (p : PhoneAgg) (r : CallRecord) (t : ℤ)
    (h : r.dateTime = some t) :
    (foldRecord p r).firstActivity ≠ none ∧ (foldRecord p r).lastActivity ≠ none := by
  unfold foldRecord
  by_cases hs : isSmsDur r.duration = true <;>
    cases hl : r.location <;>
      simp only [hs, h, hl, if_true, if_false] <;>
        (repeat' split) <;> simp_all

theorem mem_mapSet (m : List (Str × PhoneAgg)) (k : Str) (v : PhoneAgg)
    (p : Str × PhoneAgg) (h : p ∈ mapSet m k v) : p = (k, v) ∨ p ∈ m := by
  induction m with
  | nil =>
    left
    simpa [mapSet] using h
  | cons kv rest ih =>
    obtain ⟨k', v'⟩ := kv
    unfold mapSet at h
    split at h
    · rcases List.mem_cons.mp h with h' | h'
      · exact Or.inl h'
      · exact Or.inr (List.mem_cons_of_mem _ h')
    · rcases List.mem_cons.mp h with h' | h'
      · exact Or.inr (h' ▸ List.mem_cons_self _ _)
      · rcases ih h' with h'' | h''
        · exact Or.inl h''
        · exact Or.inr (List.mem_cons_of_mem _ h'')

theorem mapLookup_mem (m : List (Str × PhoneAgg)) (k : Str) (a : PhoneAgg)
    (h : mapLookup m k = some a) : (k, a) ∈ m := by
  unfold mapLookup at h
  cases hf : m.find? (fun kv => kv.1 = k) with
  | none => rw [hf] at h; exact absurd h (by simp)
  | some kv =>
    rw [hf] at h
    have hk : kv.1 = k := by simpa using List.find?_some hf
    have hmem := List.mem_of_find?_eq_some hf
    have hv : kv.2 = a := by simpa using h
    have : kv = (k, a) := Prod.ext hk hv
    exact this ▸ hmem

theorem aggStep_mem (subs : List SubscriberInfo) (m : List (Str × PhoneAgg))
    (r : CallRecord) (p : Str × PhoneAgg) (h : p ∈ aggStep subs m r) :
    p ∈ m ∨
    (r.callerNumber ≠ [] ∧ 6 ≤ r.callerNumber.length ∧
     p = (r.callerNumber,
          foldRecord ((mapLookup m r.callerNumber).getD
            (initPhone subs r.callerNumber)) r)) := by
  simp only [aggStep] at h
  split at h
  · exact Or.inl h
  · rename_i hcond
    rcases mem_mapSet _ _ _ _ h with h' | h'
    · right
      push_neg at hcond
      exact ⟨hcond.1, by omega, h'⟩
    · exact Or.inl h'

theorem mapLookup_agg (records : List CallRecord) (subs : List SubscriberInfo)
    (k : Str) :
    mapLookup (aggregateByPhoneNumber records subs) k =
      (mapLookup (records.foldl (aggStep subs) []) k).map
        (fun a => { a with records := sortRecords a.records }) := by
  unfold aggregateByPhoneNumber mapLookup
  generalize records.foldl (aggStep subs) [] = m
  induction m with
  | nil => simp
  | cons kv rest ih =>
    by_cases hk : kv.1 = k
    · simp [hk]
    · simpa [hk] using ih

theorem parseListingSheet_dateTime_isSome (js : Js) (now : ℤ) (mkId : ℕ → Str)
    (data : List Row) :
    ∀ r ∈ parseListingSheet js now mkId data, ∃ t, r.dateTime = some t := by
  intro r hr
  unfold parseListingSheet at hr
  cases data with
  | nil => simp at hr
  | cons first rest =>
    obtain ⟨x, hx, hf⟩ := List.mem_filterMap.mp hr
    simp only at hf
    split at hf
    · obtain rfl := Option.some.inj hf
      exact ⟨_, rfl⟩
    · exact absurd hf (by simp)

theorem aggFold_activity (subs : List SubscriberInfo) :
    ∀ (records : List CallRecord) (m : List (Str × PhoneAgg)),
      (∀ r ∈ records, ∃ t, r.dateTime = some t) →
      (∀ p ∈ m, p.2.firstActivity ≠ none ∧ p.2.lastActivity ≠ none) →
      ∀ p ∈ records.foldl (aggStep subs) m,
        p.2.firstActivity ≠ none ∧ p.2.lastActivity ≠ none := by
  intro records
  induction records with
  | nil =>
    intro m _ hm p hp
    exact hm p (by simpa using hp)
  | cons r rest ih =>
    intro m hd hm p hp
    rw [List.foldl_cons] at hp
    refine ih _ (fun x hx => hd x (List.mem_cons_of_mem _ hx)) ?_ p hp
    intro q hq
    rcases aggStep_mem subs m r q hq with h' | ⟨_, _, rfl⟩
    · exact hm q h'
    · obtain ⟨t, ht⟩ := hd r (List.mem_cons_self _ _)
      exact foldRecord_activity_of_dated _ _ _ ht

/-- C2: the claim fails on the code: a row whose date cell matches no
accepted shape yields a null parsed date, but the extractor replaces the
null with the clock value (`dateTime || new Date()`), so the record
carries a non-null stand-in time and the aggregate's activity window is
that stand-in, not null. -/
theorem c2_unparseable_date_counterexample :
    parseExcelDate js0 (.str ("definitely, not a date!".toList)) = none ∧
    (parseListingSheet js0 1700000000000 mkId0 [rowBadDate]).map
      (fun r => r.dateTime) = [some 1700000000000] ∧
    (mapLookup (aggregateByPhoneNumber
        (parseListingSheet js0 1700000000000 mkId0 [rowBadDate]) [])
      ("699123456".toList)).map (fun a => (a.firstActivity, a.lastActivity)) =
      some (some 1700000000000, some 1700000000000) := by decide

/-- C2 (amended): the date normalizer itself degrades an unrecognised
shape to null, but the Record Extractor substitutes the current time for
a null parsed date, so every extracted record carries a non-null
timestamp and every aggregate built from extracted records has non-null
firstActivity and lastActivity. -/
theorem c2_unparseable_date_amended (js : Js) (now : ℤ) (mkId : ℕ → Str)
    (data : List Row) (subs : List SubscriberInfo) :
    (∀ r ∈ parseListingSheet js now mkId data, ∃ t, r.dateTime = some t) ∧
    (∀ k agg,
      mapLookup (aggregateByPhoneNumber (parseListingSheet js now mkId data) subs) k =
        some agg →
      agg.firstActivity ≠ none ∧ agg.lastActivity ≠ none) := by
  refine ⟨parseListingSheet_dateTime_isSome js now mkId data, ?_⟩
  intro k agg h
  rw [mapLookup_agg] at h
  obtain ⟨a, ha, rfl⟩ := Option.map_eq_some'.mp h
  have hmem := mapLookup_mem _ _ _ ha
  have := aggFold_activity subs (parseListingSheet js now mkId data) []
    (parseListingSheet_dateTime_isSome js now mkId data) (by simp) (k, a) hmem
  exact this

/-- C2 witness: the amended theorem applied to the concrete bad-date row. -/
theorem c2_unparseable_date_witness :
    c2Agg.firstActivity ≠ none ∧ c2Agg.lastActivity ≠ none :=
  (c2_unparseable_date_amended js0 1700000000000 mkId0 [rowBadDate] []).2
    ("699123456".toList) c2Agg (by decide)

theorem aggFold_key_inv (subs : List SubscriberInfo) :
    ∀ (records : List CallRecord) (m : List (Str × PhoneAgg)),
      (∀ p ∈ m, p.1 ≠ [] ∧ 6 ≤ p.1.length ∧ ∀ r ∈ p.2.records, r.callerNumber = p.1) →
      ∀ p ∈ records.foldl (aggStep subs) m,
        p.1 ≠ [] ∧ 6 ≤ p.1.length ∧ ∀ r ∈ p.2.records, r.callerNumber = p.1 := by
  intro records
  induction records with
  | nil =>
    intro m hm p hp
    exact hm p (by simpa using hp)
  | cons r rest ih =>
    intro m hm p hp
    rw [List.foldl_cons] at hp
    refine ih _ ?_ p hp
    intro q hq
    rcases aggStep_mem subs m r q hq with h' | ⟨hne, hlen, rfl⟩
    · exact hm q h'
    · refine ⟨hne, hlen, ?_⟩
      intro r' hr'
      rw [foldRecord_records] at hr'
      rcases List.mem_append.mp hr' with h'' | h''
      · cases hl : mapLookup m r.callerNumber with
        | none => rw [hl] at h''; simp [initPhone] at h''
        | some a =>
          rw [hl] at h''
          exact (hm (r.callerNumber, a) (mapLookup_mem _ _ _ hl)).2.2 r' h''
      · obtain rfl : r' = r := by simpa using h''
        rfl

theorem aggFold_key_origin (subs : List SubscriberInfo) :
    ∀ (records : List CallRecord) (m : List (Str × PhoneAgg)) (p : Str × PhoneAgg),
      p ∈ records.foldl (aggStep subs) m →
      (∃ q ∈ m, q.1 = p.1) ∨ ∃ r ∈ records, r.callerNumber = p.1 := by
  intro records
  induction records with
  | nil =>
    intro m p hp
    exact Or.inl ⟨p, by simpa using hp, rfl⟩
  | cons r rest ih =>
    intro m p hp
    rw [List.foldl_cons] at hp
    rcases ih _ p hp with ⟨q, hq, hqp⟩ | ⟨r', hr', hr'p⟩
    · rcases aggStep_mem subs m r q hq with h' | ⟨_, _, rfl⟩
      · exact Or.inl ⟨q, h', hqp⟩
      · exact Or.inr ⟨r, List.mem_cons_self _ _, hqp⟩
    · exact Or.inr ⟨r', List.mem_cons_of_mem _ hr', hr'p⟩

/-- C5: a record is folded into an aggregate only when its caller number
is non-empty and at least 6 characters long; the aggregate's key is
exactly that caller number (all digits whenever the records come from
the extractor, which normalizes them), every record inside the aggregate
has the key as its caller number, and every aggregate key originates
from some record's caller number — never from a called number alone. -/
theorem c5_caller_only_aggregation (records : List CallRecord)
    (subs : List SubscriberInfo)
    (hnorm : ∀ r ∈ records, ∀ c ∈ r.callerNumber, c.isDigit = true)
    (k : Str) (agg : PhoneAgg)
    (h : mapLookup (aggregateByPhoneNumber records subs) k = some agg) :
    k ≠ [] ∧ 6 ≤ k.length ∧ (∀ c ∈ k, c.isDigit = true) ∧
    (∃ r ∈ records, r.callerNumber = k) ∧
    (∀ r ∈ agg.records, r.callerNumber = k) := by
  rw [mapLookup_agg] at h
  obtain ⟨a, ha, rfl⟩ := Option.map_eq_some'.mp h
  have hmem := mapLookup_mem _ _ _ ha
  have hinv := aggFold_key_inv subs records [] (by simp) (k, a) hmem
  rcases aggFold_key_origin subs records [] (k, a) hmem with ⟨q, hq, _⟩ | horig
  · simp at hq
  obtain ⟨r0, hr0, hr0k⟩ := horig
  refine ⟨hinv.1, hinv.2.1, ?_, ⟨r0, hr0, hr0k⟩, ?_⟩
  · intro c hc
    exact hnorm r0 hr0 c (hr0k ▸ hc)
  · intro r hr
    have : r ∈ a.records := by simpa [sortRecords] using hr
    exact hinv.2.2 r this

/-- C5 witness: the invariant evaluated on a concrete two-row sheet. -/
theorem c5_caller_only_witness :
    ("699111222".toList ≠ [] ∧ 6 ≤ ("699111222".toList).length ∧
     (∀ c ∈ ("699111222".toList), c.isDigit = true) ∧
     (∃ r ∈ parseListingSheet js0 0 mkId0 [rowGood, rowGood2],
        r.callerNumber = "699111222".toList) ∧
     (∀ r ∈ goodAgg.records, r.callerNumber = "699111222".toList)) :=
  c5_caller_only_aggregation (parseListingSheet js0 0 mkId0 [rowGood, rowGood2]) []
    (by decide) ("699111222".toList) goodAgg (by decide)

theorem aggFold_counts (subs : List SubscriberInfo) :
    ∀ (records : List CallRecord) (m : List (Str × PhoneAgg)),
      (∀ p ∈ m,
        p.2.smsCount = p.2.records.countP (fun r => isSmsDur r.duration) ∧
        p.2.callCount = p.2.records.countP (fun r => !isSmsDur r.duration)) →
      ∀ p ∈ records.foldl (aggStep subs) m,
        p.2.smsCount = p.2.records.countP (fun r => isSmsDur r.duration) ∧
        p.2.callCount = p.2.records.countP (fun r => !isSmsDur r.duration) := by
  intro records
  induction records with
  | nil =>
    intro m hm p hp
    exact hm p (by simpa using hp)
  | cons r rest ih =>
    intro m hm p hp
    rw [List.foldl_cons] at hp
    refine ih _ ?_ p hp
    intro q hq
    rcases aggStep_mem subs m r q hq with h' | ⟨_, _, rfl⟩
    · exact hm q h'
    · have hbase :
        ∀ b : PhoneAgg, b = (mapLookup m r.callerNumber).getD (initPhone subs r.callerNumber) →
          b.smsCount = b.records.countP (fun x => isSmsDur x.duration) ∧
          b.callCount = b.records.countP (fun x => !isSmsDur x.duration) := by
        intro b hb
        cases hl : mapLookup m r.callerNumber with
        | none => subst hb; rw [hl]; simp [initPhone]
        | some a =>
          subst hb; rw [hl]
          exact hm (r.callerNumber, a) (mapLookup_mem _ _ _ hl)
      obtain ⟨hsms, hcall⟩ := hbase _ rfl
      obtain ⟨hfs, hfc⟩ := foldRecord_counts
        ((mapLookup m r.callerNumber).getD (initPhone subs r.callerNumber)) r
      constructor
      · rw [hfs, foldRecord_records, List.countP_append, hsms]
        by_cases hd : isSmsDur r.duration = true <;> simp [hd]
      · rw [hfc, foldRecord_records, List.countP_append, hcall]
        by_cases hd : isSmsDur r.duration = true <;> simp [hd]

/-- C7: a record extracted from the SMS-designated sheet whose (already
trimmed) duration is empty is stamped with the literal duration `"SMS"`
and enters the file's record list in that form; in every aggregate the
SMS counter counts exactly the records whose duration is the SMS marker
and the call counter exactly the others; and the marker test is
case-insensitive equality with "sms". -/
theorem c7_sms_marker :
    (∀ (js : Js) (now : ℤ) (mkId : ℕ → Str) (fileName : Str) (wb : WorkBook)
       (name : Str),
      (findListingSheets (wb.map (fun kv => kv.1))).sms = some name →
      ∀ r ∈ parseListingSheet js now mkId (sheetRows wb name),
        (r.duration = [] → (stampSms r).duration = "SMS".toList) ∧
        stampSms r ∈ (parseExcelFile js now mkId fileName wb).allRecords) ∧
    (∀ (records : List CallRecord) (subs : List SubscriberInfo) (k : Str)
       (agg : PhoneAgg),
      mapLookup (aggregateByPhoneNumber records subs) k = some agg →
      agg.smsCount = agg.records.countP (fun r => isSmsDur r.duration) ∧
      agg.callCount = agg.records.countP (fun r => !isSmsDur r.duration)) ∧
    (∀ d : Str, isSmsDur d = true ↔ jsLower d = "sms".toList) := by
  refine ⟨?_, ?_, ?_⟩
  · intro js now mkId fileName wb name hname r hr
    constructor
    · intro hd
      simp [stampSms, hd]
    · unfold parseExcelFile
      simp only [hname]
      refine List.mem_append.mpr (Or.inr ?_)
      exact List.mem_map_of_mem stampSms hr
  · intro records subs k agg h
    rw [mapLookup_agg] at h
    obtain ⟨a, ha, rfl⟩ := Option.map_eq_some'.mp h
    have hmem := mapLookup_mem _ _ _ ha
    have hc := aggFold_counts subs records [] (by simp) (k, a) hmem
    have hperm : (sortRecords a.records).Perm a.records := by
      simpa [sortRecords] using
        List.perm_insertionSort (fun x y => recLE x y = true) a.records
    refine ⟨?_, ?_⟩
    · simpa [hperm.countP_eq] using hc.1
    · simpa [hperm.countP_eq] using hc.2
  · intro d
    unfold isSmsDur
    constructor
    · intro h
      rcases Bool.or_eq_true_iff.mp h with h' | h'
      · have : d = "SMS".toList := by simpa using h'
        subst this
        decide
      · simpa using h'
    · intro h
      exact Bool.or_eq_true_iff.mpr (Or.inr (by simpa using h))

/-- C7 witness: a concrete SMS-sheet workbook run through the file
parser and the aggregator. -/
theorem c7_sms_marker_witness :
    (((c7Rec.duration = [] → (stampSms c7Rec).duration = "SMS".toList) ∧
      stampSms c7Rec ∈ (parseExcelFile js0 0 mkId0 ("f".toList) wb7).allRecords) ∧
     (c7Agg.smsCount = c7Agg.records.countP (fun r => isSmsDur r.duration) ∧
      c7Agg.callCount = c7Agg.records.countP (fun r => !isSmsDur r.duration)) ∧
     (isSmsDur ("SMS".toList) = true ↔ jsLower ("SMS".toList) = "sms".toList)) :=
  ⟨c7_sms_marker.1 js0 0 mkId0 ("f".toList) wb7 ("Listing SMS".toList) (by decide)
      c7Rec (by decide),
   c7_sms_marker.2.1
     ((parseExcelFile js0 0 mkId0 ("f".toList) wb7).allRecords) []
     ("699123456".toList) c7Agg (by decide),
   c7_sms_marker.2.2 ("SMS".toList)⟩

/-- C9: after aggregation every aggregate's record list is pairwise
ascending in the sort key `dateTime?.getTime() || 0` (missing timestamps
behave as epoch 0). -/
theorem c9_records_sorted (records : List CallRecord)
    (subs : List SubscriberInfo) (k : Str) (agg : PhoneAgg)
    (h : mapLookup (aggregateByPhoneNumber records subs) k = some agg) :
    agg.records.Pairwise (fun a b => recKey a ≤ recKey b) := by
  rw [mapLookup_agg] at h
  obtain ⟨a, ha, rfl⟩ := Option.map_eq_some'.mp h
  haveI htot : IsTotal CallRecord (fun x y => recLE x y = true) :=
    ⟨fun x y => by
      simp only [recLE, decide_eq_true_eq]
      exact Int.le_total _ _⟩
  haveI htrans : IsTrans CallRecord (fun x y => recLE x y = true) :=
    ⟨fun x y z hxy hyz => by
      simp only [recLE, decide_eq_true_eq] at *
      omega⟩
  have hs := List.sorted_insertionSort (fun x y => recLE x y = true) a.records
  have : (sortRecords a.records).Pairwise (fun x y => recLE x y = true) := hs
  exact this.imp (fun h' => by simpa [recLE] using h')

/-- C9 witness: the sort invariant on a concrete aggregate built from
two rows arriving in reverse chronological order. -/
theorem c9_records_sorted_witness :
    goodAgg.records.Pairwise (fun a b => recKey a ≤ recKey b) :=
  c9_records_sorted (parseListingSheet js0 0 mkId0 [rowGood, rowGood2]) []
    ("699111222".toList) goodAgg (by decide)

theorem mergePhone_frame (js : Js) (p q : PhoneData) :
    (mergePhone js p q).number = p.number ∧
    (mergePhone js p q).identity = p.identity ∧
    (mergePhone js p q).operatorName = p.operatorName ∧
    (mergePhone js p q).firstActivity = p.firstActivity ∧
    (mergePhone js p q).lastActivity = p.lastActivity := by
  simp [mergePhone]

theorem mergeInto_mem (js : Js) :
    ∀ (acc : List PhoneData) (phone p : PhoneData), p ∈ mergeInto js acc phone →
      (∃ q ∈ acc, q.number = p.number ∧ p.identity = q.identity ∧
        p.operatorName = q.operatorName ∧ p.firstActivity = q.firstActivity ∧
        p.lastActivity = q.lastActivity) ∨
      (p = phone ∧ ∀ q ∈ acc, q.number ≠ phone.number) := by
  intro acc
  induction acc with
  | nil =>
    intro phone p hp
    right
    refine ⟨by simpa [mergeInto] using hp, by simp⟩
  | cons a rest ih =>
    intro phone p hp
    unfold mergeInto at hp
    split at hp
    · rcases List.mem_cons.mp hp with h' | h'
      · subst h'
        obtain ⟨h1, h2, h3, h4, h5⟩ := mergePhone_frame js a phone
        exact Or.inl ⟨a, List.mem_cons_self _ _, h1.symm ▸ rfl, h2.symm ▸ rfl,
          h3.symm ▸ rfl, h4.symm ▸ rfl, h5.symm ▸ rfl⟩
      · exact Or.inl ⟨p, List.mem_cons_of_mem _ h', rfl, rfl, rfl, rfl, rfl⟩
    · rcases List.mem_cons.mp hp with h' | h'
      · subst h'
        exact Or.inl ⟨p, List.mem_cons_self _ _, rfl, rfl, rfl, rfl, rfl⟩
      · rcases ih phone p h' with ⟨q, hq, heq⟩ | ⟨hpp, hnone⟩
        · exact Or.inl ⟨q, List.mem_cons_of_mem _ hq, heq⟩
        · refine Or.inr ⟨hpp, ?_⟩
          intro q hq
          rcases List.mem_cons.mp hq with h'' | h''
          · subst h''
            rename_i hneq
            exact fun hn => hneq hn
          · exact hnone q h''

theorem mergeInto_has_number (js : Js) :
    ∀ (acc : List PhoneData) (phone : PhoneData),
      ∃ q ∈ mergeInto js acc phone, q.number = phone.number := by
  intro acc
  induction acc with
  | nil =>
    intro phone
    exact ⟨phone, by simp [mergeInto], rfl⟩
  | cons a rest ih =>
    intro phone
    unfold mergeInto
    split
    · rename_i heq
      exact ⟨mergePhone js a phone, List.mem_cons_self _ _,
        (mergePhone_frame js a phone).1.trans heq⟩
    · obtain ⟨q, hq, hqn⟩ := ih phone
      exact ⟨q, List.mem_cons_of_mem _ hq, hqn⟩

theorem mergeInto_numbers_mono (js : Js) :
    ∀ (acc : List PhoneData) (phone q : PhoneData), q ∈ acc →
      ∃ w ∈ mergeInto js acc phone, w.number = q.number := by
  intro acc
  induction acc with
  | nil =>
    intro phone q hq
    simp at hq
  | cons a rest ih =>
    intro phone q hq
    unfold mergeInto
    rcases List.mem_cons.mp hq with h' | h'
    · subst h'
      split
      · exact ⟨mergePhone js q phone, List.mem_cons_self _ _,
          (mergePhone_frame js q phone).1⟩
      · exact ⟨q, List.mem_cons_self _ _, rfl⟩
    · split
      · exact ⟨q, List.mem_cons_of_mem _ h', rfl⟩
      · obtain ⟨w, hw, hwn⟩ := ih phone q h'
        exact ⟨w, List.mem_cons_of_mem _ hw, hwn⟩

theorem mergeFold_frame (js : Js) :
    ∀ (l acc : List PhoneData) (p : PhoneData),
      p ∈ l.foldl (mergeInto js) acc →
      (∃ q ∈ acc, q.number = p.number ∧ p.identity = q.identity ∧
        p.operatorName = q.operatorName ∧ p.firstActivity = q.firstActivity ∧
        p.lastActivity = q.lastActivity) ∨
      (∃ q, l.find? (fun x => x.number = p.number) = some q ∧
        p.number = q.number ∧ p.identity = q.identity ∧
        p.operatorName = q.operatorName ∧ p.firstActivity = q.firstActivity ∧
        p.lastActivity = q.lastActivity ∧ ∀ q' ∈ acc, q'.number ≠ p.number) := by
  intro l
  induction l with
  | nil =>
    intro acc p hp
    exact Or.inl ⟨p, by simpa using hp, rfl, rfl, rfl, rfl, rfl⟩
  | cons x rest ih =>
    intro acc p hp
    rw [List.foldl_cons] at hp
    rcases ih (mergeInto js acc x) p hp with ⟨q, hq, hqn, h2, h3, h4, h5⟩ |
      ⟨q, hfind, hqn, h2, h3, h4, h5, hnone⟩
    · rcases mergeInto_mem js acc x q hq with ⟨q0, hq0, hq0n, g2, g3, g4, g5⟩ |
        ⟨hqx, hnoacc⟩
      · exact Or.inl ⟨q0, hq0, hq0n.trans hqn, h2.trans g2, h3.trans g3,
          h4.trans g4, h5.trans g5⟩
      · subst hqx
        refine Or.inr ⟨q, ?_, hqn.symm, h2, h3, h4, h5, ?_⟩
        · rw [List.find?_cons_of_pos _ (by simpa using hqn)]
        · intro q' hq'
          rw [← hqn]
          exact hnoacc q' hq'
    · obtain ⟨w, hw, hwn⟩ := mergeInto_has_number js acc x
      have hxp : x.number ≠ p.number := by
        rw [← hwn]
        exact hnone w hw
      refine Or.inr ⟨q, ?_, hqn, h2, h3, h4, h5, ?_⟩
      · rw [List.find?_cons_of_neg _ (by simpa using hxp), hfind]
      · intro q' hq'
        obtain ⟨w', hw', hw'n⟩ := mergeInto_numbers_mono js acc x q' hq'
        rw [← hw'n]
        exact hnone w' hw'

/-- C10: merging a later file's entry into an already-seen number updates
only the counters, the record list and the location list; the merged
entry's number, identity, operator and activity window are those of the
first occurrence of that number across the batch, in file order — even
when the newly merged records fall outside that window. -/
theorem c10_merge_frame (js : Js) (files : List (List PhoneData)) (p : PhoneData)
    (h : p ∈ mergeAll js files) :
    ∃ q, files.flatten.find? (fun x => x.number = p.number) = some q ∧
      p.number = q.number ∧ p.identity = q.identity ∧
      p.operatorName = q.operatorName ∧ p.firstActivity = q.firstActivity ∧
      p.lastActivity = q.lastActivity := by
  unfold mergeAll at h
  rcases mergeFold_frame js files.flatten [] p h with ⟨q, hq, _⟩ |
    ⟨q, hfind, h1, h2, h3, h4, h5, _⟩
  · simp at hq
  · exact ⟨q, hfind, h1, h2, h3, h4, h5⟩

/-- C10 witness: two concrete files for the same number; the merged entry
keeps the first file's identity and activity window although the second
file's record lies outside it. -/
theorem c10_merge_frame_witness :
    ∃ q, ([[pdA], [pdB]] : List (List PhoneData)).flatten.find?
        (fun x => x.number = mergedAB.number) = some q ∧
      mergedAB.number = q.number ∧ mergedAB.identity = q.identity ∧
      mergedAB.operatorName = q.operatorName ∧
      mergedAB.firstActivity = q.firstActivity ∧
      mergedAB.lastActivity = q.lastActivity :=
  c10_merge_frame js0 [[pdA], [pdB]] mergedAB (by decide)

/-- C1: the claim fails on the code: the merger deduplicates locations by
EXACT coordinate equality, not by the epsilon box.  Two files for the
same number whose single locations are within epsilon of each other
(latitudes 3.9 and 3.90005) merge into an aggregate with callCount = 2
but TWO locations, not one. -/
theorem c1_merge_counterexample :
    closeLoc locA locB = true ∧
    locA ≠ locB ∧
    (mergeAll js0 [[pdA], [pdB]]).map
      (fun p => (p.callCount, p.locations.length)) = [(2, 2)] := by
  refine ⟨?_, by decide, by decide⟩
  simp only [closeLoc, locA, locB, decide_eq_true_eq, Bool.and_eq_true]
  simp only [Rat.mk'_eq_divInt, Rat.divInt_eq_div]
  constructor <;> rw [abs_sub_lt_iff] <;> norm_num

/-- C1 (amended): merging two files' entries for the same phone number
sums callCount and smsCount, concatenates and re-sorts the record lists
by timestamp, and unions the location lists deduplicating by EXACT
equality of latitude and longitude (not the epsilon box); consequently
two files whose entries carry the very same location merge to exactly
one location, while within-epsilon-but-unequal locations both remain. -/
theorem c1_merge_amended (js : Js) (p1 p2 : PhoneData)
    (h : p1.number = p2.number) :
    mergeAll js [[p1], [p2]] = [mergePhone js p1 p2] ∧
    (mergePhone js p1 p2).callCount = p1.callCount + p2.callCount ∧
    (mergePhone js p1 p2).smsCount = p1.smsCount + p2.smsCount ∧
    (mergePhone js p1 p2).records =
      List.insertionSort (fun a b => serialLE js a b = true)
        (p1.records ++ p2.records) ∧
    (mergePhone js p1 p2).locations =
      p2.locations.foldl addLocExact p1.locations ∧
    (∀ loc, p1.locations = [loc] → p2.locations = [loc] →
      (mergePhone js p1 p2).locations = [loc]) := by
  refine ⟨?_, rfl, rfl, rfl, rfl, ?_⟩
  · simp [mergeAll, mergeInto, h]
  · intro loc h1 h2
    simp [mergePhone, h1, h2, addLocExact]

/-- C1 witness: the amended merge behaviour at the two concrete one-entry
files. -/
theorem c1_merge_amended_witness :
    mergeAll js0 [[pdA], [pdB]] = [mergePhone js0 pdA pdB] ∧
    (mergePhone js0 pdA pdB).callCount = pdA.callCount + pdB.callCount ∧
    (mergePhone js0 pdA pdB).smsCount = pdA.smsCount + pdB.smsCount ∧
    (mergePhone js0 pdA pdB).records =
      List.insertionSort (fun a b => serialLE js0 a b = true)
        (pdA.records ++ pdB.records) ∧
    (mergePhone js0 pdA pdB).locations =
      pdB.locations.foldl addLocExact pdA.locations ∧
    (∀ loc, pdA.locations = [loc] → pdB.locations = [loc] →
      (mergePhone js0 pdA pdB).locations = [loc]) :=
  c1_merge_amended js0 pdA pdB (by decide)

theorem colStep_eq (st : Cols) (col : Str) :
    colStep st col =
      match classifyHeader col with
      | some .location => { st with locationCol := some col }
      | some .imei => { st with imeiCol := some col }
      | some .caller => { st with callerNumberCol := some col }
      | some .called => { st with calledNumberCol := some col }
      | some .date => { st with dateCol := some col }
      | some .dur => { st with durationCol := some col }
      | none => st := by
  by_cases h1 : containsStr (normalizeString col) ("localisation".toList) = true <;>
    by_cases h2 : containsStr (normalizeString col) ("imei".toList) = true <;>
      by_cases h3 : (startsWithStr (normalizeString col) ("numero appelant".toList) = true ∨
          startsWithStr (normalizeString col) ("numero emetteur".toList) = true) <;>
        by_cases h4 : (startsWithStr (normalizeString col) ("numero appele".toList) = true ∨
            startsWithStr (normalizeString col) ("numero recepteur".toList) = true) <;>
          by_cases h5 : containsStr (normalizeString col) ("date".toList) = true <;>
            by_cases h6 : containsStr (normalizeString col) ("duree".toList) = true <;>
              simp_all [colStep, classifyHeader]

theorem lastRole_cons (c : Str) (rest : List Str) (ρ : ColumnRole) :
    lastRole (c :: rest) ρ =
      (lastRole rest ρ).or (if classifyHeader c = some ρ then some c else none) := by
  unfold lastRole
  rw [List.filter_cons]
  by_cases hc : classifyHeader c = some ρ
  · rw [if_pos (by simpa using hc), if_pos hc, getLast?_or_cons]
  · rw [if_neg (by simpa using hc), if_neg hc, Option.or_none]

theorem foldl_colStep_field (getF : Cols → Option Str) (ρ : ColumnRole)
    (hstep : ∀ st col, getF (colStep st col) =
      if classifyHeader col = some ρ then some col else getF st) :
    ∀ (cols : List Str) (st : Cols),
      getF (cols.foldl colStep st) = (lastRole cols ρ).or (getF st) := by
  intro cols
  induction cols with
  | nil =>
    intro st
    simp [lastRole]
  | cons c rest ih =>
    intro st
    rw [List.foldl_cons, ih, hstep, lastRole_cons]
    by_cases hc : classifyHeader c = some ρ
    · rw [if_pos hc, if_pos hc]
      cases lastRole rest ρ <;> simp
    · rw [if_neg hc, if_neg hc]
      cases lastRole rest ρ <;> simp

/-- C8: the Column Inferencer assigns, for every role, exactly the LAST
header (in iteration order) that the fixed-priority rule table
classifies into that role; headers matching no rule are ignored and each
header is classified into at most one role (the classification is a
function). -/
theorem c8_column_inferencer (columns : List Str) :
    (identifyColumns columns).locationCol = lastRole columns .location ∧
    (identifyColumns columns).imeiCol = lastRole columns .imei ∧
    (identifyColumns columns).callerNumberCol = lastRole columns .caller ∧
    (identifyColumns columns).calledNumberCol = lastRole columns .called ∧
    (identifyColumns columns).dateCol = lastRole columns .date ∧
    (identifyColumns columns).durationCol = lastRole columns .dur := by
  unfold identifyColumns
  refine ⟨?_, ?_, ?_, ?_, ?_, ?_⟩
  · rw [foldl_colStep_field (fun st => st.locationCol) .location
      (fun st col => by rw [colStep_eq]; cases h : classifyHeader col with
        | none => simp
        | some ρ => cases ρ <;> simp_all)]
    simp [Option.or_none]
  · rw [foldl_colStep_field (fun st => st.imeiCol) .imei
      (fun st col => by rw [colStep_eq]; cases h : classifyHeader col with
        | none => simp
        | some ρ => cases ρ <;> simp_all)]
    simp [Option.or_none]
  · rw [foldl_colStep_field (fun st => st.callerNumberCol) .caller
      (fun st col => by rw [colStep_eq]; cases h : classifyHeader col with
        | none => simp
        | some ρ => cases ρ <;> simp_all)]
    simp [Option.or_none]
  · rw [foldl_colStep_field (fun st => st.calledNumberCol) .called
      (fun st col => by rw [colStep_eq]; cases h : classifyHeader col with
        | none => simp
        | some ρ => cases ρ <;> simp_all)]
    simp [Option.or_none]
  · rw [foldl_colStep_field (fun st => st.dateCol) .date
      (fun st col => by rw [colStep_eq]; cases h : classifyHeader col with
        | none => simp
        | some ρ => cases ρ <;> simp_all)]
    simp [Option.or_none]
  · rw [foldl_colStep_field (fun st => st.durationCol) .dur
      (fun st col => by rw [colStep_eq]; cases h : classifyHeader col with
        | none => simp
        | some ρ => cases ρ <;> simp_all)]
    simp [Option.or_none]

theorem digit_not_ws2 (c : Char) (h : c.isDigit = true) : isJsWs c = false := by
  cases hw : isJsWs c with
  | false => rfl
  | true =>
    exfalso
    simp only [isJsWs, decide_eq_true_eq] at hw
    rcases hw with h' | h' | h' | h' | h' | h' | h' | h' <;>
      (subst h'; exact absurd h (by decide))

theorem numClass_not_ws (c : Char) (h : numClass c = true) : isJsWs c = false := by
  simp only [numClass, decide_eq_true_eq] at h
  rcases h with h | h | h
  · exact digit_not_ws2 c h
  · subst h; decide
  · subst h; decide

theorem takeWhile_append_stop (p : Char → Bool) (l : Str) (a : Char) (r : Str)
    (hl : ∀ c ∈ l, p c = true) (ha : p a = false) :
    (l ++ a :: r).takeWhile p = l := by
  induction l with
  | nil => simp [List.takeWhile_cons, ha]
  | cons c t ih =>
    rw [List.cons_append, List.takeWhile_cons, hl c (List.mem_cons_self c t)]
    simp only [if_true]
    rw [ih (fun x hx => hl x (List.mem_cons_of_mem _ hx))]

theorem takeWhile_all_eq (p : Char → Bool) (l : Str)
    (hl : ∀ c ∈ l, p c = true) : l.takeWhile p = l := by
  induction l with
  | nil => rfl
  | cons c t ih =>
    rw [List.takeWhile_cons, hl c (List.mem_cons_self c t)]
    simp only [if_true]
    rw [ih (fun x hx => hl x (List.mem_cons_of_mem _ hx))]

theorem dropWhile_not_head (p : Char → Bool) (a : Char) (r : Str)
    (ha : p a = false) : (a :: r).dropWhile p = a :: r := by
  simp [List.dropWhile_cons, ha]

theorem startsWithCI_concrete_long (t : Str) :
    startsWithCI ("Long: ".toList ++ t) ("long:".toList) = true := by
  simp [startsWithCI, jsLower, List.isPrefixOf, jsLowerChar]

theorem startsWithCI_concrete_lat (t : Str) :
    startsWithCI ("Lat:".toList ++ t) ("lat:".toList) = true := by
  simp [startsWithCI, jsLower, List.isPrefixOf, jsLowerChar]

theorem findCoords_cons_pos (c : Char) (rest : Str)
    (h : startsWithCI (c :: rest) ("long:".toList) = true)
    (p : Str × Str) (hp : tryCoordsAt ((c :: rest).drop 5) = some p) :
    findCoords (c :: rest) = some p := by
  unfold findCoords
  rw [h, hp]
  simp

theorem tryCoordsAt_concrete (x0 y0 : Char) (xs0 ys0 : Str)
    (hxc : ∀ c ∈ x0 :: xs0, numClass c = true)
    (hyc : ∀ c ∈ y0 :: ys0, numClass c = true) :
    tryCoordsAt (' ' :: ((x0 :: xs0) ++ (" Lat: ".toList ++ (y0 :: ys0)))) =
      some (x0 :: xs0, y0 :: ys0) := by
  have e1 : (' ' :: ((x0 :: xs0) ++ (" Lat: ".toList ++ (y0 :: ys0)))).dropWhile isJsWs =
      (x0 :: xs0) ++ (" Lat: ".toList ++ (y0 :: ys0)) := by
    rw [List.dropWhile_cons]
    simp only [show isJsWs ' ' = true from rfl, if_true, List.cons_append]
    exact dropWhile_not_head _ _ _ (numClass_not_ws x0 (hxc x0 (List.mem_cons_self _ _)))
  have e2 : List.takeWhile numClass ((x0 :: xs0) ++ (" Lat: ".toList ++ (y0 :: ys0))) =
      x0 :: xs0 := by
    have hform : (" Lat: ".toList ++ (y0 :: ys0)) =
        ' ' :: ("Lat: ".toList ++ (y0 :: ys0)) := rfl
    rw [hform]
    exact takeWhile_append_stop _ _ _ _ hxc (by decide)
  have e3 : ((x0 :: xs0) ++ (" Lat: ".toList ++ (y0 :: ys0))).drop (x0 :: xs0).length =
      " Lat: ".toList ++ (y0 :: ys0) := List.drop_left _ _
  have e4 : (" Lat: ".toList ++ (y0 :: ys0)).dropWhile isJsWs =
      "Lat:".toList ++ (' ' :: (y0 :: ys0)) := rfl
  have e5 : ("Lat:".toList ++ (' ' :: (y0 :: ys0))).drop 4 = ' ' :: (y0 :: ys0) := rfl
  have e6 : (' ' :: (y0 :: ys0)).dropWhile isJsWs = y0 :: ys0 := by
    rw [List.dropWhile_cons]
    simp only [show isJsWs ' ' = true from rfl, if_true]
    exact dropWhile_not_head _ _ _ (numClass_not_ws y0 (hyc y0 (List.mem_cons_self _ _)))
  have e7 : List.takeWhile numClass (y0 :: ys0) = y0 :: ys0 := takeWhile_all_eq _ _ hyc
  simp only [tryCoordsAt, e1, e2, e3, e4, e5, e6, e7]
  rw [if_neg (by simp)]
  rw [if_pos (startsWithCI_concrete_lat _)]
  rw [if_neg (by simp)]

theorem findCoords_concrete (xs ys : Str)
    (hx : xs ≠ []) (hy : ys ≠ [])
    (hxc : ∀ c ∈ xs, numClass c = true) (hyc : ∀ c ∈ ys, numClass c = true) :
    findCoords ("Long: ".toList ++ xs ++ " Lat: ".toList ++ ys) = some (xs, ys) := by
  obtain ⟨x0, xs0, rfl⟩ := List.exists_cons_of_ne_nil hx
  obtain ⟨y0, ys0, rfl⟩ := List.exists_cons_of_ne_nil hy
  have hassoc : "Long: ".toList ++ (x0 :: xs0) ++ " Lat: ".toList ++ (y0 :: ys0) =
      "Long: ".toList ++ ((x0 :: xs0) ++ (" Lat: ".toList ++ (y0 :: ys0))) := by
    simp [List.append_assoc]
  rw [hassoc]
  refine findCoords_cons_pos _ _ ?_ _ ?_
  · exact startsWithCI_concrete_long _
  · exact tryCoordsAt_concrete x0 y0 xs0 ys0 hxc hyc


theorem jsTrim_longLat_ne (xs ys : Str) :
    jsTrim ("Long: ".toList ++ xs ++ " Lat: ".toList ++ ys) ≠ [] := by
  intro h
  unfold jsTrim at h
  rw [List.reverse_eq_nil_iff, List.dropWhile_eq_nil_iff] at h
  have hL : 'L' ∈ (("Long: ".toList ++ xs ++ " Lat: ".toList ++ ys).dropWhile isJsWs).reverse := by
    rw [List.mem_reverse]
    have he : ("Long: ".toList ++ xs ++ " Lat: ".toList ++ ys).dropWhile isJsWs =
        "Long: ".toList ++ xs ++ " Lat: ".toList ++ ys := by
      rfl
    rw [he]
    simp
  exact absurd (h _ hL) (by decide)

theorem parseLocation_none_iff (s : Str) :
    parseLocationString s = none ↔ noLocCond s := by
  unfold parseLocationString noLocCond
  by_cases hg : s = [] ∨ s = "--".toList ∨ jsTrim s = [] ∨ s = "Site inconnu".toList
  · rw [if_pos hg]
    constructor
    · intro _
      tauto
    · intro _
      rfl
  · rw [if_neg hg]
    push_neg at hg
    obtain ⟨h1, h2, h3, h4⟩ := hg
    cases hf : findCoords s with
    | none => simp [h1, h2, h3, h4]
    | some p =>
      obtain ⟨xs, ys⟩ := p
      dsimp only
      cases hx : parseFloatQ xs with
      | none =>
        constructor
        · intro _
          exact Or.inr (Or.inr (Or.inr (Or.inr (Or.inr ⟨xs, ys, rfl, Or.inl hx⟩))))
        · intro _
          rfl
      | some lon =>
        cases hy : parseFloatQ ys with
        | none =>
          constructor
          · intro _
            exact Or.inr (Or.inr (Or.inr (Or.inr (Or.inr
              ⟨xs, ys, rfl, Or.inr (Or.inl hy)⟩))))
          · intro _
            rfl
        | some lat =>
          dsimp only
          by_cases hr : lat < -90 ∨ 90 < lat ∨ lon < -180 ∨ 180 < lon
          · rw [if_pos hr]
            constructor
            · intro _
              exact Or.inr (Or.inr (Or.inr (Or.inr (Or.inr
                ⟨xs, ys, rfl, Or.inr (Or.inr ⟨lon, lat, hx, hy, hr⟩)⟩))))
            · intro _
              rfl
          · rw [if_neg hr]
            constructor
            · intro h
              exact absurd h (by simp)
            · intro h
              exfalso
              rcases h with h | h | h | h | h | ⟨xs2, ys2, hf2, hbad⟩
              · exact h1 h
              · exact h3 h
              · exact h2 h
              · exact h4 h
              · exact Option.noConfusion h
              · obtain ⟨rfl, rfl⟩ : xs = xs2 ∧ ys = ys2 := by
                  have := Option.some.inj hf2
                  exact ⟨congrArg Prod.fst this, congrArg Prod.snd this⟩
                rcases hbad with hb | hb | ⟨lon2, lat2, he1, he2, hb⟩
                · rw [hx] at hb
                  exact Option.noConfusion hb
                · rw [hy] at hb
                  exact Option.noConfusion hb
                · rw [hx] at he1
                  rw [hy] at he2
                  obtain rfl := Option.some.inj he1
                  obtain rfl := Option.some.inj he2
                  exact hr hb

theorem parseLocation_pos (xs ys : Str) (lon lat : ℚ)
    (hx : xs ≠ []) (hy : ys ≠ [])
    (hxc : ∀ c ∈ xs, numClass c = true) (hyc : ∀ c ∈ ys, numClass c = true)
    (hlon : parseFloatQ xs = some lon) (hlat : parseFloatQ ys = some lat)
    (h1 : -180 ≤ lon) (h2 : lon ≤ 180) (h3 : -90 ≤ lat) (h4 : lat ≤ 90) :
    ∃ l, parseLocationString ("Long: ".toList ++ xs ++ " Lat: ".toList ++ ys) =
        some l ∧ l.longitude = lon ∧ l.latitude = lat := by
  have hguard : ¬("Long: ".toList ++ xs ++ " Lat: ".toList ++ ys = [] ∨
      "Long: ".toList ++ xs ++ " Lat: ".toList ++ ys = "--".toList ∨
      jsTrim ("Long: ".toList ++ xs ++ " Lat: ".toList ++ ys) = [] ∨
      "Long: ".toList ++ xs ++ " Lat: ".toList ++ ys = "Site inconnu".toList) := by
    push_neg
    exact ⟨by simp, by simp, jsTrim_longLat_ne xs ys, by simp⟩
  unfold parseLocationString
  rw [if_neg hguard, findCoords_concrete xs ys hx hy hxc hyc]
  dsimp only
  rw [hlon, hlat]
  dsimp only
  rw [if_neg (by push_neg; exact ⟨h3, h4, h1, h2⟩)]
  exact ⟨_, rfl, rfl, rfl⟩

/-- C6: the Location-String Decoder returns null exactly under the
spec's conditions (empty, whitespace-only, the two literal placeholders,
no match of the coordinate pattern, an unparseable coordinate, or a
coordinate outside geographic range), and for every well-formed
`"Long: X Lat: Y"` string whose coordinates parse to in-range values it
returns the exact parsed longitude and latitude. -/
theorem c6_location_decoder :
    (∀ s : Str, parseLocationString s = none ↔ noLocCond s) ∧
    (∀ (xs ys : Str) (lon lat : ℚ),
      xs ≠ [] → ys ≠ [] →
      (∀ c ∈ xs, numClass c = true) → (∀ c ∈ ys, numClass c = true) →
      parseFloatQ xs = some lon → parseFloatQ ys = some lat →
      -180 ≤ lon → lon ≤ 180 → -90 ≤ lat → lat ≤ 90 →
      ∃ l, parseLocationString ("Long: ".toList ++ xs ++ " Lat: ".toList ++ ys) =
          some l ∧ l.longitude = lon ∧ l.latitude = lat) :=
  ⟨parseLocation_none_iff,
   fun xs ys lon lat hx hy hxc hyc hlon hlat h1 h2 h3 h4 =>
     parseLocation_pos xs ys lon lat hx hy hxc hyc hlon hlat h1 h2 h3 h4⟩

/-- C6 witness: the placeholder `"--"` decodes to null, and the concrete
string `"Long: 11 Lat: 3"` decodes to longitude 11 and latitude 3. -/
theorem c6_location_decoder_witness :
    parseLocationString ("--".toList) = none ∧
    (∃ l, parseLocationString
        ("Long: ".toList ++ "11".toList ++ " Lat: ".toList ++ "3".toList) = some l ∧
      l.longitude = 1 * ((11 : ℕ) : ℚ) ∧ l.latitude = 1 * ((3 : ℕ) : ℚ)) :=
  ⟨(c6_location_decoder.1 ("--".toList)).mpr (Or.inr (Or.inr (Or.inl rfl))),
   c6_location_decoder.2 ("11".toList) ("3".toList) _ _ (by decide) (by decide)
     (by decide) (by decide) rfl rfl (by push_cast; norm_num) (by push_cast; norm_num)
     (by push_cast; norm_num) (by push_cast; norm_num)⟩

/-- C3 witness: the amended discovery rule evaluated on a concrete
workbook with a fallback sheet, an exact-"listing" sheet and a calls
sheet. -/
theorem c3_sheet_discovery_witness :
    (findListingSheets
        ["Feuille".toList, "Listing".toList, "Listing Appel".toList]).calls =
      (lastContaining ("listing appel".toList)
          ["Feuille".toList, "Listing".toList, "Listing Appel".toList]).or
        (firstExactListing
          ["Feuille".toList, "Listing".toList, "Listing Appel".toList]) ∧
    (findListingSheets
        ["Feuille".toList, "Listing".toList, "Listing Appel".toList]).sms =
      lastContaining ("listing sms".toList)
        ["Feuille".toList, "Listing".toList, "Listing Appel".toList] :=
  c3_sheet_discovery_amended
    ["Feuille".toList, "Listing".toList, "Listing Appel".toList]

/-- C4 witness: idempotence at a concrete input whose normalized form
does not start with 237. -/
theorem c4_normalize_idempotent_witness :
    normalizePhoneNumber (normalizePhoneNumber ("699-123-456".toList)) =
      normalizePhoneNumber ("699-123-456".toList) :=
  (c4_normalize_idempotent_iff ("699-123-456".toList)).mpr (by decide)

/-- C8 witness: the Column Inferencer characterization at a concrete
header list containing a duplicate date header. -/
theorem c8_column_inferencer_witness :
    (identifyColumns cols8).locationCol = lastRole cols8 .location ∧
    (identifyColumns cols8).imeiCol = lastRole cols8 .imei ∧
    (identifyColumns cols8).callerNumberCol = lastRole cols8 .caller ∧
    (identifyColumns cols8).calledNumberCol = lastRole cols8 .called ∧
    (identifyColumns cols8).dateCol = lastRole cols8 .date ∧
    (identifyColumns cols8).durationCol = lastRole cols8 .dur :=
  c8_column_inferencer cols8
